import Mathlib

/-!
Shallow embedding of the gura-js-parser repository.

The embedded code comes from `src/parser.ts` (the generic backtracking
engine: `char`, `keyword`, `match`, the `maybe*` combinators and
`splitCharRanges`), `src/gura-parser.ts` (the Gura grammar rules, the
top-level `parse` and the serializer `dump`) and `src/errors.ts` (the error
classes).

Modelling conventions:
* JS strings are `List Char`; `this.pos` is an `Int` (it starts at `-1`),
  `this.len` is `text.length - 1` as in `restartParams`.
* The mutable parser object is a `PState` record threaded explicitly.  A
  step either succeeds with a value and the updated state or throws,
  carrying the error and the state at throw time (JS exceptions do not
  unwind mutations): `StepRes α = Except (GuraError × PState) (α × PState)`.
* The JS error classes are told apart by an `ErrKind` tag; only
  `ParseError` is caught by the speculative combinators, exactly as the
  `instanceof ParseError` tests in the source.
* General recursion (the mutually recursive grammar rules and the loops
  inside them) is embedded with explicit fuel: a single dispatcher
  `runCall : Nat → GCall → PState → StepRes RVal` is structurally recursive
  on the fuel, and each grammar method body is a separate definition
  parameterised by the recursion function, so everything is computable and
  reduces inside the kernel.  `outOfFuel` never occurs with enough fuel.
* The filesystem and the process environment are the external collaborators
  of the spec, modelled as association lists carried in the state.  JS
  `number` values are modelled exactly as the code manufactures them:
  `parseInt` produces mathematical integers, `parseFloat` exact rationals,
  plus the special `inf`/`nan` values; `NaN` results are a distinguished
  constructor.
-/

namespace Gura

/-- The error classes of `errors.ts` plus the internal `ValueError` of
`parser.ts`, told apart by a kind tag (in JS they are subclasses of
`GuraError`; only `ParseError` is recovered from by the speculative
combinators).  `outOfFuel` is an artifact of the fuel-based embedding and
never occurs in runs with enough fuel.  `ValueError` carries no position in
the source; it is embedded with `pos = 0`, `line = 0`. -/
inductive ErrKind where
  | parseError
  | valueError
  | invalidIndentation
  | variableNotDefined
  | duplicatedVariable
  | duplicatedKey
  | duplicatedImport
  | fileNotFound
  | outOfFuel
deriving DecidableEq, Repr

/-- A thrown error: kind tag plus the `pos`/`line`/`message` fields of
`GuraError` in `errors.ts`. -/
structure GuraError where
  kind : ErrKind
  pos : Int
  line : Nat
  message : String
deriving DecidableEq, Repr

/-- A JS number as manufactured by the `number` rule and consumed by `dump`:
`parseInt` results are integers, `parseFloat` results are exact rationals
(the embedding does not round to binary doubles), and the special values
`±Infinity` and `NaN` are explicit. -/
inductive JsNum where
  | int (n : Int)
  | float (q : Rat)
  | inf (neg : Bool)
  | nan
deriving DecidableEq, Repr

/-- A parsed Gura document value (the spec's Document Value): null, boolean,
number, string, list, or insertion-ordered mapping (a JS object is embedded
as an association list in insertion order). -/
inductive GValue where
  | vNull
  | bool (b : Bool)
  | num (n : JsNum)
  | str (s : List Char)
  | list (xs : List GValue)
  | obj (entries : List (List Char × GValue))

/-- `MatchResultType` of `gura-parser.ts`. -/
inductive MatchResultType where
  | USELESS_LINE
  | PAIR
  | COMMENT
  | IMPORT
  | VARIABLE
  | EXPRESSION
  | PRIMITIVE
  | LIST
deriving DecidableEq, Repr

/-- The dynamic values flowing between rules.  In JS every rule returns
`any`: a `MatchResult`, a string, a number, `null`, or `undefined`; the
`value` payload of a `MatchResult` is itself one of a string, a `GValue`,
the `[result, indentationLevel]` pair of `expression`, or the
`[key, value, indentation]` triple of `pair`. -/
inductive RVal where
  | undef
  | jsNull
  | str (s : List Char)
  | nat (n : Nat)
  | value (v : GValue)
  | exprPair (result : List (List Char × GValue)) (indentationLevel : Nat)
  | pairTriple (key : List Char) (v : GValue) (indentation : Nat)
  | mr (resultType : MatchResultType) (v : RVal)

/-- The mutable fields of a `GuraParser` instance (`text`, `pos`, `line`,
`len`, `variables`, `indentationLevels`, `importedFiles`), together with the
external collaborators of the spec: the process environment and the
filesystem, both as association lists.  The JS `indentationLevels` array is
pushed/popped at its end; it is modelled with the list head as the stack
top. -/
structure PState where
  text : List Char
  pos : Int
  line : Nat
  len : Int
  /-- `this.variables` in the source (`variables` is reserved in Lean). -/
  vars : List (List Char × GValue)
  indentationLevels : List Nat
  importedFiles : List (List Char)
  env : List (List Char × List Char)
  fs : List (List Char × List Char)

/-- Result of one embedded step: success with a value and the updated
state, or a thrown error with the state at throw time. -/
def StepRes (α : Type) : Type := Except (GuraError × PState) (α × PState)

/-! ### JS string primitives -/

/-- JS `text[i]`: `undefined` (here `none`) when out of range. -/
def jsCharAt (t : List Char) (i : Int) : Option Char :=
  if i < 0 then none else t.get? i.toNat

/-- JS whitespace for `trim`/`parseInt`/`parseFloat` (the characters that
can actually occur here). -/
def isJsWs (c : Char) : Bool :=
  c = ' ' ∨ c = '\t' ∨ c = '\n' ∨ c = '\r' ∨ c = '\x0B' ∨ c = '\x0C'

/-- JS `String.prototype.substring(low, high)`: clamps both indices to
`[0, length]` and swaps them when `low > high`. -/
def jsSubstring (t : List Char) (low high : Int) : List Char :=
  let n : Int := t.length
  let a := (min (max low 0) n).toNat
  let b := (min (max high 0) n).toNat
  let lo := min a b
  let hi := max a b
  (t.take hi).drop lo

/-- JS one-argument `substring(start)` (to the end of the string). -/
def jsSubstringFrom (t : List Char) (low : Int) : List Char :=
  jsSubstring t low t.length

/-- JS `trimRight`. -/
def jsTrimRight (t : List Char) : List Char :=
  ((t.reverse).dropWhile isJsWs).reverse

/-- JS `trimStart`. -/
def jsTrimStart (t : List Char) : List Char :=
  t.dropWhile isJsWs

/-- JS `replace(/_/g, '')`. -/
def removeUnderscores (t : List Char) : List Char :=
  t.filter (fun c => c ≠ '_')

/-- Association-list lookup (JS `Map.get` / object property / `process.env`
access). -/
def alistLookup {β : Type} (l : List (List Char × β)) (k : List Char) : Option β :=
  match l with
  | [] => none
  | (k1, v) :: rest => if k1 = k then some v else alistLookup rest k

/-- Digit value for `parseInt` (`0-9`, `a-z`, `A-Z`). -/
def digitVal (c : Char) : Option Nat :=
  if '0' ≤ c ∧ c ≤ '9' then some (c.toNat - '0'.toNat)
  else if 'a' ≤ c ∧ c ≤ 'z' then some (c.toNat - 'a'.toNat + 10)
  else if 'A' ≤ c ∧ c ≤ 'Z' then some (c.toNat - 'A'.toNat + 10)
  else none

/-- Digits-to-value fold for `parseInt`. -/
def digitsToNat (base : Nat) (ds : List Char) : Nat :=
  ds.foldl (fun acc c => acc * base + ((digitVal c).getD 0)) 0

/-- The longest digit prefix valid in `base`, and the `parseInt` rule that
at least one digit is required (`NaN`, i.e. `none`, otherwise). -/
def parseDigits (base : Nat) (s : List Char) : Option Nat :=
  let ds := s.takeWhile (fun c => ((digitVal c).getD base) < base)
  if ds = [] then none else some (digitsToNat base ds)

/-- JS `parseInt(s, base)` after sign handling: for base 16 an optional
`0x`/`0X` prefix is skipped. -/
def jsParseIntNoSign (base : Nat) (s : List Char) : Option Nat :=
  if base = 16 then
    match s with
    | '0' :: 'x' :: r => parseDigits 16 r
    | '0' :: 'X' :: r => parseDigits 16 r
    | _ => parseDigits 16 s
  else parseDigits base s

/-- JS `parseInt(s, base)` with an explicit base: skip leading whitespace,
optional sign, then the longest run of valid digits; `NaN` (`none`) when no
digit is found. -/
def jsParseIntRadix (base : Nat) (s : List Char) : Option Int :=
  match s.dropWhile isJsWs with
  | '-' :: r => (jsParseIntNoSign base r).map (fun n => -(n : Int))
  | '+' :: r => (jsParseIntNoSign base r).map (fun n => (n : Int))
  | r => (jsParseIntNoSign base r).map (fun n => (n : Int))

/-- JS `parseInt(s)` without a base: radix 10 unless the (signed) string
starts with `0x`/`0X`, which selects radix 16. -/
def jsParseIntAuto (s : List Char) : Option Int :=
  match s.dropWhile isJsWs with
  | '-' :: '0' :: 'x' :: r => (parseDigits 16 r).map (fun n => -(n : Int))
  | '-' :: '0' :: 'X' :: r => (parseDigits 16 r).map (fun n => -(n : Int))
  | '-' :: r => (parseDigits 10 r).map (fun n => -(n : Int))
  | '+' :: '0' :: 'x' :: r => (parseDigits 16 r).map (fun n => (n : Int))
  | '+' :: '0' :: 'X' :: r => (parseDigits 16 r).map (fun n => (n : Int))
  | '+' :: r => (parseDigits 10 r).map (fun n => (n : Int))
  | '0' :: 'x' :: r => (parseDigits 16 r).map (fun n => (n : Int))
  | '0' :: 'X' :: r => (parseDigits 16 r).map (fun n => (n : Int))
  | r => (parseDigits 10 r).map (fun n => (n : Int))

/-- Is `c` a decimal digit? -/
def isDecDigit (c : Char) : Bool := '0' ≤ c ∧ c ≤ '9'

/-- JS `parseFloat(s)`: leading whitespace, optional sign, the longest
decimal literal prefix `digits [. digits] [e|E [sign] digits]` (an
incomplete exponent is ignored), `NaN` (`none`) if no digit is found before
the exponent.  (`parseFloat` also accepts the literal `Infinity`, which is
unreachable here because the number rule only consumes characters from
`ACCEPTABLE_NUMBER_CHARS`.)  The result is the exact rational value. -/
def jsParseFloat (s0 : List Char) : Option Rat :=
  let s1 := s0.dropWhile isJsWs
  let sign : Int := if s1.head? = some '-' then -1 else 1
  let s2 := if s1.head? = some '-' ∨ s1.head? = some '+' then s1.tail else s1
  let intDs := s2.takeWhile isDecDigit
  let s3 := s2.drop intDs.length
  let fracDs := if s3.head? = some '.' then (s3.tail).takeWhile isDecDigit else []
  let s4 := if s3.head? = some '.' then (s3.tail).drop fracDs.length else s3
  if intDs = [] ∧ fracDs = [] then none
  else
    let mantissa : Int := sign * ((digitsToNat 10 (intDs ++ fracDs) : Int))
    let fracLen := fracDs.length
    let expVal : Int :=
      match s4 with
      | 'e' :: r | 'E' :: r =>
        let esign : Int := if r.head? = some '-' then -1 else 1
        let r2 := if r.head? = some '-' ∨ r.head? = some '+' then r.tail else r
        let eds := r2.takeWhile isDecDigit
        if eds = [] then 0 else esign * (digitsToNat 10 eds : Int)
      | _ => 0
    let e : Int := expVal - (fracLen : Int)
    if 0 ≤ e then some ((mantissa : Rat) * ((10 : Rat) ^ e.toNat))
    else some ((mantissa : Rat) / ((10 : Rat) ^ (-e).toNat))

/-! ### The generic engine of `parser.ts` -/

/-- A rule handed to the `match` combinator: in JS a bound method; here its
`Function.name` (used in the composite error message) and the step
function. -/
structure Rule (α : Type) where
  name : String
  fn : PState → StepRes α

/-- `Parser.splitCharRanges`: splits a char-set string such as `"0-9A-Za-z_"`
into singletons and 3-character inclusive ranges; a descending range throws
the internal `ValueError`.  (The per-set memoisation cache of the source is
pure and is omitted: it always stores exactly the value computed here.) -/
def splitCharRanges : List Char → Except GuraError (List (List Char))
  | [] => .ok []
  | a :: '-' :: b :: rest =>
    if a ≥ b then .error ⟨.valueError, 0, 0, "Bad character range"⟩
    else
      match splitCharRanges rest with
      | .error e => .error e
      | .ok r => .ok ([a, '-', b] :: r)
  | c :: rest =>
    match splitCharRanges rest with
    | .error e => .error e
    | .ok r => .ok ([c] :: r)

/-- Does one entry of `splitCharRanges`' output match `c` (the two branches
of the loop in `Parser.char`)? -/
def charRangeMatches (charRange : List Char) (c : Char) : Bool :=
  match charRange with
  | [single] => c = single
  | lo :: _ :: hi :: _ => lo ≤ c ∧ c ≤ hi
  | _ => false

/-- `Parser.char(chars)`: fails at end of input; with `chars = null`
consumes and returns the next character unconditionally; otherwise the next
character must match one of the ranges.  All failures are `ParseError`s at
`pos + 1` except a `ValueError` escaping from `splitCharRanges`. -/
def char (chars : Option (List Char)) (s : PState) : StepRes Char :=
  if s.pos ≥ s.len then
    let param := match chars with
      | none => "next character"
      | some cs => "[" ++ String.mk cs ++ "]"
    .error (⟨.parseError, s.pos + 1, s.line, "Expected " ++ param ++ " but got end of string"⟩, s)
  else
    let nextChar := (jsCharAt s.text (s.pos + 1)).getD '\x00'
    match chars with
    | none => .ok (nextChar, { s with pos := s.pos + 1 })
    | some cs =>
      match splitCharRanges cs with
      | .error e => .error (e, s)
      | .ok ranges =>
        if ranges.any (fun r => charRangeMatches r nextChar) then
          .ok (nextChar, { s with pos := s.pos + 1 })
        else
          .error (⟨.parseError, s.pos + 1, s.line,
            "Expected [" ++ String.mk cs ++ "] but got next char"⟩, s)

/-- `Parser.keyword(keywords)`: at end of input fails at `pos` (note: not
`pos + 1` — the source differs here from `char`); otherwise consumes and
returns the first keyword that matches at `pos + 1`, else fails at
`pos + 1`. -/
def keyword (keywords : List (List Char)) (s : PState) : StepRes (List Char) :=
  if s.pos ≥ s.len then
    .error (⟨.parseError, s.pos, s.line, "Expected keywords but got end of string"⟩, s)
  else
    match keywords.find? (fun kw => jsSubstring s.text (s.pos + 1) (s.pos + 1 + kw.length) = kw) with
    | some kw => .ok (kw, { s with pos := s.pos + kw.length })
    | none =>
      .error (⟨.parseError, s.pos + 1, s.line, "Expected keywords but got next char"⟩, s)

/-- `.name.substring(6)` applied in the composite message of `match` (it
strips the `"bound "` prefix of a bound method's `Function.name`). -/
def ruleDisplayName (n : String) : String := String.mk (n.data.drop 6)

/-- The composite `ParseError` message of `Parser.match`. -/
def compositeMessage (names : List String) : String :=
  "Expected " ++ String.intercalate ", " (names.map ruleDisplayName) ++ " but got char"

/-- The loop of `Parser.match` with its three accumulator variables
`lastErrorPos`, `lastException`, `lastErrorRules`.  On a `ParseError` the
cursor (`pos`) and `line` are restored to their values before the attempt
and the next rule is tried; the furthest failure position is tracked, rules
tying at it are accumulated; any non-`ParseError` is rethrown immediately.
When all rules have failed: with exactly one accumulated rule the recorded
exception itself is rethrown, otherwise a composite `ParseError` at
`min(text.length - 1, lastErrorPos)` is thrown. -/
def matchLoop {α : Type} (rules : List (Rule α)) (lastErrorPos : Int)
    (lastException : Option GuraError) (lastErrorRules : List String)
    (s : PState) : StepRes α :=
  match rules with
  | [] =>
    if lastErrorRules.length = 1 then
      .error (lastException.getD ⟨.parseError, lastErrorPos, s.line, ""⟩, s)
    else
      let p := min ((s.text.length : Int) - 1) lastErrorPos
      .error (⟨.parseError, p, s.line, compositeMessage lastErrorRules⟩, s)
  | r :: rest =>
    match r.fn s with
    | .ok (a, s1) => .ok (a, s1)
    | .error (e, s1) =>
      if e.kind = .parseError then
        let s2 := { s1 with pos := s.pos, line := s.line }
        if e.pos > lastErrorPos then
          matchLoop rest e.pos (some e) [r.name] s2
        else if e.pos = lastErrorPos then
          matchLoop rest lastErrorPos lastException (lastErrorRules ++ [r.name]) s2
        else
          matchLoop rest lastErrorPos lastException lastErrorRules s2
      else .error (e, s1)

/-- `Parser.match(rules)` (named `matchRules` because `match` is reserved in
Lean). -/
def matchRules {α : Type} (rules : List (Rule α)) (s : PState) : StepRes α :=
  matchLoop rules (-1) none [] s

/-- The shared try/catch shape of `maybeChar` / `maybeMatch` /
`maybeKeyword`: a `ParseError` becomes `null` (`none`), anything else is
rethrown to stop parsing. -/
def maybeCatch {α : Type} (r : StepRes α) : StepRes (Option α) :=
  match r with
  | .ok (a, s) => .ok (some a, s)
  | .error (e, s) =>
    if e.kind = .parseError then .ok (none, s) else .error (e, s)

/-- `Parser.maybeChar`. -/
def maybeChar (chars : Option (List Char)) (s : PState) : StepRes (Option Char) :=
  maybeCatch (char chars s)

/-- `Parser.maybeMatch`. -/
def maybeMatch {α : Type} (rules : List (Rule α)) (s : PState) : StepRes (Option α) :=
  maybeCatch (matchRules rules s)

/-- `Parser.maybeKeyword`. -/
def maybeKeyword (keywords : List (List Char)) (s : PState) : StepRes (Option (List Char)) :=
  maybeCatch (keyword keywords s)

/-- `Parser.assertEnd`. -/
def assertEnd (s : PState) : StepRes Unit :=
  if s.pos < s.len then
    .error (⟨.parseError, s.pos + 1, s.line, "Expected end of string"⟩, s)
  else .ok ((), s)

/-! ### Grammar constants of `gura-parser.ts` -/

/-- `KEY_ACCEPTABLE_CHARS`. -/
def keyAcceptableChars : List Char := "0-9A-Za-z_".data

/-- `ACCEPTABLE_NUMBER_CHARS` = basic digits + `HEX_OCT_BIN` + `INF_AND_NAN`
+ `'Ee+._-'` (`-` last so it is not read as a range). -/
def acceptableNumberChars : List Char := "0-9A-Fa-fxobinEe+._-".data

/-- The new-line character set `'\f\v\r\n'`. -/
def newLineChars : List Char := ['\x0C', '\x0B', '\r', '\n']

/-- `ESCAPE_SEQUENCES`: escape letter to replacement character. -/
def escapeSequences : List (Char × Char) :=
  [('b', '\x08'), ('f', '\x0C'), ('n', '\n'), ('r', '\r'), ('t', '\t'),
   ('"', '"'), ('\\', '\\'), ('$', '$')]

/-- `SEQUENCES_TO_ESCAPE` (for `dump`). -/
def sequencesToEscape : List (Char × List Char) :=
  [('\\', ['\\', '\\']), ('\x08', ['\\', 'b']), ('\x0C', ['\\', 'f']),
   ('\n', ['\\', 'n']), ('\r', ['\\', 'r']), ('\t', ['\\', 't']),
   ('"', ['\\', '"']), ('$', ['\\', '$'])]

/-- `INDENT`: four spaces. -/
def indentChars : List Char := "    ".data

/-- Generic association-list lookup with any decidable key type (JS `Map` /
object-literal property access). -/
def lookupBy {κ β : Type} [DecidableEq κ] (l : List (κ × β)) (k : κ) : Option β :=
  match l with
  | [] => none
  | (k1, v) :: rest => if k1 = k then some v else lookupBy rest k

/-! ### Dynamic-value coercions (JS `any`) -/

/-- Dynamic read of a string result (other cases unreachable at runtime). -/
def asStr : RVal → List Char
  | .str s => s
  | _ => []

/-- Dynamic read of a number result (other cases unreachable at runtime). -/
def asNat : Option RVal → Nat
  | some (.nat n) => n
  | _ => 0

/-- `matchResult.value` as a document value (other cases unreachable). -/
def asValue : RVal → GValue
  | .mr _ (.value v) => v
  | .value v => v
  | _ => .vNull

/-- JS string coercion applied to variable values pushed into string
builders and joined (`String(x)`).  A `float` prints as its exact rational
(a stand-in for JS double printing, never exercised by the verified
claims). -/
def jsToString : GValue → List Char
  | .str s => s
  | .num (.int n) => (toString n).data
  | .num (.float q) => (toString q).data
  | .num (.inf neg) => if neg then "-Infinity".data else "Infinity".data
  | .num .nan => "NaN".data
  | .bool b => if b then "true".data else "false".data
  | .vNull => "null".data
  | _ => []

/-! ### The grammar call descriptors

Every `GuraParser` rule method, and every `while` loop inside one (with the
loop's mutable locals as parameters), is one constructor.  A single
fuel-indexed dispatcher `runCall` ties the recursion, so each method body
below is an ordinary non-recursive definition parameterised by the
recursion function. -/

/-- The rule methods of `GuraParser` (source `variable` and `null` are
`variableDef` and `nullLit`: both are reserved words in Lean). -/
inductive GRule where
  | guraImport
  | newLine
  | comment
  | wsWithIndentation
  | ws
  | quotedStringWithVar
  | anyType
  | primitiveType
  | complexType
  | variableValue
  | variableDef
  | list
  | uselessLine
  | expression
  | key
  | pair
  | nullLit
  | emptyObject
  | boolean
  | unquotedString
  | number
  | basicString
  | literalString

/-- A callable unit: a rule method, or one of the loops inside a method
carrying its loop-local accumulators. -/
inductive GCall where
  | rule (g : GRule)
  | commentLoop
  | wsIndentLoop (currentIndentationLevel : Nat)
  | wsLoop
  | eatWsLoop
  | charsLoop (set : List Char) (acc : List Char)
  | quotedStrLoop (quote : List Char) (acc : List (List Char))
  | expressionLoop (result : List (List Char × GValue)) (indentationLevel : Nat)
  | listLoop (result : List GValue)
  | basicStringLoop (quote : List Char) (isMultiline : Bool) (acc : List (List Char))
  | literalStringLoop (quote : List Char) (acc : List Char)

/-- The recursion function threaded through the method bodies. -/
def Recur : Type := GCall → PState → StepRes RVal

/-- A bound rule method as passed to `match`: name (with the `"bound "`
prefix of a JS bound method) plus the dispatched call. -/
def bRule (recur : Recur) (name : String) (g : GRule) : Rule RVal :=
  ⟨name, recur (.rule g)⟩

/-! ### Pure pieces of the grammar -/

/-- `GuraParser.restartParams`. -/
def restartParams (text : List Char) (s : PState) : PState :=
  { s with text := text, pos := -1, line := 1, len := (text.length : Int) - 1 }

/-- A freshly constructed parser (`new GuraParser()`) before `restartParams`,
sharing the external collaborators. -/
def freshState (env fs : List (List Char × List Char)) : PState :=
  ⟨[], -1, 1, -1, [], [], [], env, fs⟩

/-- `GuraParser.getLastIndentationLevel` (list head = JS array end). -/
def getLastIndentationLevel (s : PState) : Option Nat :=
  s.indentationLevels.head?

/-- `GuraParser.removeLastIndentationLevel`. -/
def removeLastIndentationLevel (s : PState) : PState :=
  if s.indentationLevels.length > 0 then
    { s with indentationLevels := s.indentationLevels.tail }
  else s

/-- `GuraParser.exceptionDataWithInitialData`: the (line, pos) reported for
child-indentation errors. -/
def exceptionDataWithInitialData (childIndentationLevel : Nat) (initialLine : Nat)
    (initialPos : Int) : Nat × Int :=
  (initialLine + 1, initialPos + 2 + childIndentationLevel)

/-- `GuraParser.getVariableValue`: the defined-variables table first, then
the process environment (whose values are strings), else
`VariableNotDefinedError`. -/
def getVariableValue (key : List Char) (position : Int) (line : Nat)
    (s : PState) : StepRes GValue :=
  match lookupBy s.vars key with
  | some v => .ok (v, s)
  | none =>
    match lookupBy s.env key with
    | some envVariable => .ok (.str envVariable, s)
    | none =>
      let k := String.mk key
      .error (⟨.variableNotDefined, position, line,
        "Variable \"" ++ k ++ "\" is not defined in Gura nor as environment variable"⟩, s)

/-- Lines 643–661 of `pair`: the `% 4` divisibility check followed by the
three-way comparison with the indentation-stack top.  `.inr s` = continue
parsing the pair with stack updated; `.inl s` = the `width < top` case:
one level popped, cursor rewound to `posBeforePair`, and the caller
returns the `null` no-match sentinel. -/
def pairIndentCheck (currentIndentationLevel : Nat) (posBeforePair : Int)
    (s : PState) : Except (GuraError × PState) (PState ⊕ PState) :=
  let lastIndentationBlock := getLastIndentationLevel s
  if currentIndentationLevel % 4 ≠ 0 then
    .error (⟨.invalidIndentation, posBeforePair, s.line,
      s!"Indentation block ({currentIndentationLevel}) must be divisible by 4"⟩, s)
  else
    match lastIndentationBlock with
    | none =>
      .ok (.inr { s with indentationLevels := currentIndentationLevel :: s.indentationLevels })
    | some top =>
      if currentIndentationLevel > top then
        .ok (.inr { s with indentationLevels := currentIndentationLevel :: s.indentationLevels })
      else if currentIndentationLevel < top then
        .ok (.inl { removeLastIndentationLevel s with pos := posBeforePair })
      else .ok (.inr s)

/-- Lines 679–709 of `pair`: when the value is a nested expression, its
reported indentation must not equal the pair's own (sibling written as
child) and must differ from it by exactly 4. -/
def pairChildIndentCheck (key : List Char) (currentIndentationLevel childIndentationLevel : Nat)
    (objectValues : List (List Char × GValue)) (initialPos : Int) (initialLine : Nat)
    (s : PState) : StepRes Unit :=
  if childIndentationLevel = currentIndentationLevel then
    let ex := exceptionDataWithInitialData childIndentationLevel initialLine initialPos
    let childKey := String.mk (match objectValues.head? with
      | some kv => kv.1
      | none => [])
    let parentKey := String.mk key
    .error (⟨.invalidIndentation, ex.2, ex.1,
      "Wrong indentation level for pair with key \"" ++ childKey ++
        "\" (parent \"" ++ parentKey ++ "\" has the same indentation level)"⟩, s)
  else if ((currentIndentationLevel : Int) - (childIndentationLevel : Int)).natAbs ≠ 4 then
    let ex := exceptionDataWithInitialData childIndentationLevel initialLine initialPos
    .error (⟨.invalidIndentation, ex.2, ex.1,
      "Difference between different indentation levels must be 4"⟩, s)
  else .ok ((), s)

/-- The `numberType` classification of the `number` rule: the consumption
loop marks the literal as float when any character after the first is `E`,
`e` or `.` (the first character goes through `this.char` before the loop
and is never inspected). -/
def floatClassified (chars : List Char) : Bool :=
  (chars.drop 1).any (fun c => c = 'E' ∨ c = 'e' ∨ c = '.')

/-- `parseInt(s, base)` as used by the `0x`/`0o`/`0b` branch of `number`:
the JS result is a plain number, `NaN` when no digit is valid. -/
def jsNumOfParseInt (o : Option Int) : JsNum :=
  match o with
  | some n => .int n
  | none => .nan

/-- Lines 810–853 of the `number` rule: everything after the consumption
loop, as a pure function of the consumed characters.  `none` is the final
`"... is not a valid number"` `ParseError`. -/
def numberValueOf (chars : List Char) : Option JsNum :=
  let result := removeUnderscores (jsTrimRight chars)
  let pfx := jsSubstring result 0 2
  if pfx = "0x".data ∨ pfx = "0o".data ∨ pfx = "0b".data then
    let withoutPfx := jsSubstringFrom result 2
    let base : Nat := if pfx = "0x".data then 16 else if pfx = "0o".data then 8 else 2
    some (jsNumOfParseInt (jsParseIntRadix base withoutPfx))
  else
    let lastThreeChars := jsSubstringFrom result ((result.length : Int) - 3)
    if lastThreeChars = "inf".data then some (.inf (result.head? = some '-'))
    else if lastThreeChars = "nan".data then some .nan
    else if floatClassified chars then
      match jsParseFloat result with
      | some q => some (.float q)
      | none => none
    else
      match jsParseIntAuto result with
      | some n => some (.int n)
      | none => none

/-- `String.fromCharCode`: truncates to a 16-bit code unit (an unpaired
surrogate maps to the default character, an approximation). -/
def jsFromCharCode (n : Nat) : List Char :=
  [Char.ofNat (n % 65536)]

/-! ### The rule method bodies (each parameterised by the recursion
function `recur`, which dispatches every nested rule call and loop
iteration) -/

/-- `GuraParser.newLine`: one character from `'\f\v\r\n'`, incrementing
`line`. -/
def newLine (_recur : Recur) (s : PState) : StepRes RVal :=
  match char (some newLineChars) s with
  | .error es => .error es
  | .ok (_, s1) => .ok (.undef, { s1 with line := s1.line + 1 })

/-- The `while` loop of `comment`: consume up to and including the line
terminator (which also bumps `line`). -/
def commentLoop (recur : Recur) (s : PState) : StepRes RVal :=
  if s.pos < s.len then
    let c := (jsCharAt s.text (s.pos + 1)).getD '\x00'
    let s1 := { s with pos := s.pos + 1 }
    if newLineChars.contains c then .ok (.undef, { s1 with line := s1.line + 1 })
    else recur .commentLoop s1
  else .ok (.undef, s)

/-- `GuraParser.comment`. -/
def comment (recur : Recur) (s : PState) : StepRes RVal :=
  match keyword ["#".data] s with
  | .error es => .error es
  | .ok (_, s1) =>
    match recur .commentLoop s1 with
    | .error es => .error es
    | .ok (_, s2) => .ok (.mr .COMMENT .undef, s2)

/-- The `while` loop of `wsWithIndentation`: count spaces, reject tabs with
an `InvalidIndentationError`. -/
def wsIndentLoop (recur : Recur) (currentIndentationLevel : Nat) (s : PState) : StepRes RVal :=
  if s.pos < s.len then
    match maybeKeyword [" ".data, "\t".data] s with
    | .error es => .error es
    | .ok (none, s1) => .ok (.nat currentIndentationLevel, s1)
    | .ok (some blank, s1) =>
      if blank = "\t".data then
        .error (⟨.invalidIndentation, s1.pos, s1.line,
          "Tabs are not allowed to define indentation blocks"⟩, s1)
      else recur (.wsIndentLoop (currentIndentationLevel + 1)) s1
  else .ok (.nat currentIndentationLevel, s)

/-- `GuraParser.wsWithIndentation`. -/
def wsWithIndentation (recur : Recur) (s : PState) : StepRes RVal :=
  recur (.wsIndentLoop 0) s

/-- The `while` loop of `ws`: consume blanks and tabs. -/
def wsLoop (recur : Recur) (s : PState) : StepRes RVal :=
  match maybeKeyword [" ".data, "\t".data] s with
  | .error es => .error es
  | .ok (none, s1) => .ok (.undef, s1)
  | .ok (some _, s1) => recur .wsLoop s1

/-- `GuraParser.ws`. -/
def ws (recur : Recur) (s : PState) : StepRes RVal :=
  recur .wsLoop s

/-- `GuraParser.eatWsAndNewLines` (a loop over `maybeChar`). -/
def eatWsLoop (recur : Recur) (s : PState) : StepRes RVal :=
  match maybeChar (some " \x0C\x0B\r\n\t".data) s with
  | .error es => .error es
  | .ok (none, s1) => .ok (.undef, s1)
  | .ok (some _, s1) => recur .eatWsLoop s1

/-- The shared shape of `getVarName` and the tail loops of
`unquotedString`/`number`: accumulate `maybeChar(set)` results. -/
def charsLoop (recur : Recur) (set : List Char) (acc : List Char) (s : PState) : StepRes RVal :=
  match maybeChar (some set) s with
  | .error es => .error es
  | .ok (none, s1) => .ok (.str acc, s1)
  | .ok (some c, s1) => recur (.charsLoop set (acc ++ [c])) s1

/-- The `while (true)` loop of `quotedStringWithVar`: plain characters up
to the closing quote, `$name` resolved through `getVariableValue`. -/
def quotedStrLoop (recur : Recur) (quote : List Char) (acc : List (List Char))
    (s : PState) : StepRes RVal :=
  match char none s with
  | .error es => .error es
  | .ok (c, s1) =>
    if [c] = quote then .ok (.str acc.flatten, s1)
    else if c = '$' then
      let initialPos := s1.pos
      let initialLine := s1.line
      match recur (.charsLoop keyAcceptableChars []) s1 with
      | .error es => .error es
      | .ok (varNameRV, s2) =>
        match getVariableValue (asStr varNameRV) initialPos initialLine s2 with
        | .error es => .error es
        | .ok (v, s3) => recur (.quotedStrLoop quote (acc ++ [jsToString v])) s3
    else recur (.quotedStrLoop quote (acc ++ [[c]])) s1

/-- `GuraParser.quotedStringWithVar` (the import-path string: no escape
processing, `$name` interpolation only). -/
def quotedStringWithVar (recur : Recur) (s : PState) : StepRes RVal :=
  match keyword ["\"".data] s with
  | .error es => .error es
  | .ok (quote, s1) => recur (.quotedStrLoop quote []) s1

/-- `GuraParser.guraImport`: `import "<path>"` plus trailing whitespace and
an optional newline. -/
def guraImport (recur : Recur) (s : PState) : StepRes RVal :=
  match keyword ["import".data] s with
  | .error es => .error es
  | .ok (_, s1) =>
    match char (some " ".data) s1 with
    | .error es => .error es
    | .ok (_, s2) =>
      match matchRules [bRule recur "bound quotedStringWithVar" .quotedStringWithVar] s2 with
      | .error es => .error es
      | .ok (fileToImport, s3) =>
        match matchRules [bRule recur "bound ws" .ws] s3 with
        | .error es => .error es
        | .ok (_, s4) =>
          match maybeMatch [bRule recur "bound newLine" .newLine] s4 with
          | .error es => .error es
          | .ok (_, s5) => .ok (.mr .IMPORT (.str (asStr fileToImport)), s5)

/-- `GuraParser.anyType`: a primitive if one matches, else a complex
type. -/
def anyType (recur : Recur) (s : PState) : StepRes RVal :=
  match maybeMatch [bRule recur "bound primitiveType" .primitiveType] s with
  | .error es => .error es
  | .ok (some result, s1) => .ok (result, s1)
  | .ok (none, s1) => matchRules [bRule recur "bound complexType" .complexType] s1

/-- `GuraParser.primitiveType`: optional whitespace around one of the seven
primitive alternatives, in declared order. -/
def primitiveType (recur : Recur) (s : PState) : StepRes RVal :=
  match maybeMatch [bRule recur "bound ws" .ws] s with
  | .error es => .error es
  | .ok (_, s1) =>
    match matchRules
        [bRule recur "bound null" .nullLit,
         bRule recur "bound boolean" .boolean,
         bRule recur "bound basicString" .basicString,
         bRule recur "bound literalString" .literalString,
         bRule recur "bound number" .number,
         bRule recur "bound variableValue" .variableValue,
         bRule recur "bound emptyObject" .emptyObject] s1 with
    | .error es => .error es
    | .ok (result, s2) =>
      match maybeMatch [bRule recur "bound ws" .ws] s2 with
      | .error es => .error es
      | .ok (_, s3) => .ok (result, s3)

/-- `GuraParser.complexType`: a list or an expression. -/
def complexType (recur : Recur) (s : PState) : StepRes RVal :=
  matchRules [bRule recur "bound list" .list, bRule recur "bound expression" .expression] s

/-- `GuraParser.variableValue`: `$name` reference resolved through
`getVariableValue`. -/
def variableValue (recur : Recur) (s : PState) : StepRes RVal :=
  match keyword ["$".data] s with
  | .error es => .error es
  | .ok (_, s1) =>
    match matchRules [bRule recur "bound unquotedString" .unquotedString] s1 with
    | .error es => .error es
    | .ok (keyRV, s2) =>
      let key := asStr keyRV
      let pos := s2.pos - (key.length : Int)
      let line := s2.line
      match getVariableValue key pos line s2 with
      | .error es => .error es
      | .ok (v, s3) => .ok (.mr .PRIMITIVE (.value v), s3)

/-- `GuraParser.variable` (named `variableDef`; `variable` is reserved in
Lean): a `$name: value` definition, rejecting redefinition. -/
def variableDef (recur : Recur) (s : PState) : StepRes RVal :=
  let initialPos := s.pos
  let initialLine := s.line
  match keyword ["$".data] s with
  | .error es => .error es
  | .ok (_, s1) =>
    match matchRules [bRule recur "bound key" .key] s1 with
    | .error es => .error es
    | .ok (keyRV, s2) =>
      let key := asStr keyRV
      match maybeMatch [bRule recur "bound ws" .ws] s2 with
      | .error es => .error es
      | .ok (_, s3) =>
        match matchRules
            [bRule recur "bound basicString" .basicString,
             bRule recur "bound literalString" .literalString,
             bRule recur "bound number" .number,
             bRule recur "bound variableValue" .variableValue] s3 with
        | .error es => .error es
        | .ok (matchResult, s4) =>
          if (lookupBy s4.vars key).isSome then
            .error (⟨.duplicatedVariable, initialPos + 1, initialLine,
              "Variable \"" ++ String.mk key ++ "\" has been already declared"⟩, s4)
          else
            .ok (.mr .VARIABLE .undef,
              { s4 with vars := s4.vars ++ [(key, asValue matchResult)] })

/-- The `while (true)` loop of `list`: skip useless lines, take items via
`anyType` (an expression item contributes its object), continue on a
trailing comma. -/
def listLoop (recur : Recur) (result : List GValue) (s : PState) : StepRes RVal :=
  match maybeMatch [bRule recur "bound uselessLine" .uselessLine] s with
  | .error es => .error es
  | .ok (some _, s1) => recur (.listLoop result) s1
  | .ok (none, s1) =>
    match maybeMatch [bRule recur "bound anyType" .anyType] s1 with
    | .error es => .error es
    | .ok (none, s2) => .ok (.value (.list result), s2)
    | .ok (some .jsNull, s2) => .ok (.value (.list result), s2)
    | .ok (some item, s2) =>
      let itemVal : GValue :=
        match item with
        | .mr .EXPRESSION (.exprPair obj _) => .obj obj
        | _ => asValue item
      let result2 := result ++ [itemVal]
      match maybeMatch [bRule recur "bound ws" .ws] s2 with
      | .error es => .error es
      | .ok (_, s3) =>
        match maybeMatch [bRule recur "bound newLine" .newLine] s3 with
        | .error es => .error es
        | .ok (_, s4) =>
          match maybeKeyword [",".data] s4 with
          | .error es => .error es
          | .ok (none, s5) => .ok (.value (.list result2), s5)
          | .ok (some _, s5) => recur (.listLoop result2) s5

/-- `GuraParser.list`. -/
def list (recur : Recur) (s : PState) : StepRes RVal :=
  match maybeMatch [bRule recur "bound ws" .ws] s with
  | .error es => .error es
  | .ok (_, s1) =>
    match keyword ["[".data] s1 with
    | .error es => .error es
    | .ok (_, s2) =>
      match recur (.listLoop []) s2 with
      | .error es => .error es
      | .ok (itemsRV, s3) =>
        match maybeMatch [bRule recur "bound ws" .ws] s3 with
        | .error es => .error es
        | .ok (_, s4) =>
          match maybeMatch [bRule recur "bound newLine" .newLine] s4 with
          | .error es => .error es
          | .ok (_, s5) =>
            match keyword ["]".data] s5 with
            | .error es => .error es
            | .ok (_, s6) => .ok (.mr .LIST (.value (asValue itemsRV)), s6)

/-- `GuraParser.uselessLine`: whitespace, optional comment, optional
newline; a `ParseError` (`"It is a valid line"`) unless a comment or a
newline was present. -/
def uselessLine (recur : Recur) (s : PState) : StepRes RVal :=
  match matchRules [bRule recur "bound ws" .ws] s with
  | .error es => .error es
  | .ok (_, s1) =>
    match maybeMatch [bRule recur "bound comment" .comment] s1 with
    | .error es => .error es
    | .ok (commentOpt, s2) =>
      let initialLine := s2.line
      match maybeMatch [bRule recur "bound newLine" .newLine] s2 with
      | .error es => .error es
      | .ok (_, s3) =>
        let isNewLine := s3.line - initialLine = 1
        if commentOpt.isNone ∧ ¬isNewLine then
          .error (⟨.parseError, s3.pos + 1, s3.line, "It is a valid line"⟩, s3)
        else .ok (.mr .USELESS_LINE .undef, s3)

/-- The closing ternary of `expression`: a populated mapping yields an
`EXPRESSION` result carrying `[result, indentationLevel]`, an empty one
yields JS `null`. -/
def expressionFinish (result : List (List Char × GValue)) (indentationLevel : Nat)
    (s : PState) : StepRes RVal :=
  if result.length > 0 then .ok (.mr .EXPRESSION (.exprPair result indentationLevel), s)
  else .ok (.jsNull, s)

/-- The tail of one `expression` loop iteration: after the matched item,
peek past whitespace for `]` or `,` (the end of an enclosing list): on one,
pop an indentation level, step back one character and stop; otherwise
restore the position and continue the loop. -/
def expressionAfterItem (recur : Recur) (result : List (List Char × GValue))
    (indentationLevel : Nat) (s : PState) : StepRes RVal :=
  let initialPos := s.pos
  match maybeMatch [bRule recur "bound ws" .ws] s with
  | .error es => .error es
  | .ok (_, s1) =>
    match maybeKeyword ["]".data, ",".data] s1 with
    | .error es => .error es
    | .ok (some _, s2) =>
      let s3 := removeLastIndentationLevel s2
      expressionFinish result indentationLevel { s3 with pos := s3.pos - 1 }
    | .ok (none, s2) =>
      recur (.expressionLoop result indentationLevel) { s2 with pos := initialPos }

/-- The `while` loop of `expression`: match a variable definition, a pair
or a useless line; `null` ends the loop; a `PAIR` item is added to the
ordered mapping unless its key already exists (`DuplicatedKeyError`). -/
def expressionLoop (recur : Recur) (result : List (List Char × GValue))
    (indentationLevel : Nat) (s : PState) : StepRes RVal :=
  if s.pos < s.len then
    let initialPos := s.pos
    let initialLine := s.line
    match matchRules
        [bRule recur "bound variable" .variableDef,
         bRule recur "bound pair" .pair,
         bRule recur "bound uselessLine" .uselessLine] s with
    | .error es => .error es
    | .ok (.jsNull, s1) => expressionFinish result indentationLevel s1
    | .ok (.mr .PAIR (.pairTriple key value indentation), s1) =>
      if (lookupBy result key).isSome then
        .error (⟨.duplicatedKey, initialPos + 1 + (indentation : Int), initialLine,
          "The key \"" ++ String.mk key ++ "\" has been already defined"⟩, s1)
      else expressionAfterItem recur (result ++ [(key, value)]) indentation s1
    | .ok (_, s1) => expressionAfterItem recur result indentationLevel s1
  else expressionFinish result indentationLevel s

/-- `GuraParser.expression`. -/
def expression (recur : Recur) (s : PState) : StepRes RVal :=
  recur (.expressionLoop [] 0) s

/-- `GuraParser.key`: an unquoted string followed by `:` (the `typeof`
guard of the source is unreachable since `unquotedString` always yields a
string). -/
def key (recur : Recur) (s : PState) : StepRes RVal :=
  match matchRules [bRule recur "bound unquotedString" .unquotedString] s with
  | .error es => .error es
  | .ok (keyRV, s1) =>
    match keyRV with
    | .str k =>
      match keyword [":".data] s1 with
      | .error es => .error es
      | .ok (_, s2) => .ok (.str k, s2)
    | _ =>
      .error (⟨.parseError, s1.pos + 1, s1.line, "Expected string for key"⟩, s1)

/-- The tail of `pair` after the value is resolved: a list value resets the
indentation-stack top to this pair's width, then an optional newline, then
the `[key, value, indentation]` triple. -/
def pairFinish (recur : Recur) (key : List Char) (result : GValue)
    (currentIndentationLevel : Nat) (s : PState) : StepRes RVal :=
  let s1 :=
    match result with
    | .list _ =>
      let sp := removeLastIndentationLevel s
      { sp with indentationLevels := currentIndentationLevel :: sp.indentationLevels }
    | _ => s
  match maybeMatch [bRule recur "bound newLine" .newLine] s1 with
  | .error es => .error es
  | .ok (_, s2) => .ok (.mr .PAIR (.pairTriple key result currentIndentationLevel), s2)

/-- `GuraParser.pair`: the central rule.  Records the position before
consuming indentation, measures the width, parses the key, runs
`pairIndentCheck` (the `% 4` validation and the stack three-way
comparison; its `.inl` outcome is the `return null` no-match sentinel),
parses the value, applies `pairChildIndentCheck` to a nested-expression
value, and finishes via `pairFinish`. -/
def pair (recur : Recur) (s : PState) : StepRes RVal :=
  let posBeforePair := s.pos
  match maybeMatch [bRule recur "bound wsWithIndentation" .wsWithIndentation] s with
  | .error es => .error es
  | .ok (cilOpt, s1) =>
    let currentIndentationLevel := asNat cilOpt
    match matchRules [bRule recur "bound key" .key] s1 with
    | .error es => .error es
    | .ok (keyRV, s2) =>
      let pairKey := asStr keyRV
      match maybeMatch [bRule recur "bound ws" .ws] s2 with
      | .error es => .error es
      | .ok (_, s3) =>
        match pairIndentCheck currentIndentationLevel posBeforePair s3 with
        | .error es => .error es
        | .ok (.inl s4) => .ok (.jsNull, s4)
        | .ok (.inr s4) =>
          let initialPos := s4.pos
          let initialLine := s4.line
          match matchRules [bRule recur "bound anyType" .anyType] s4 with
          | .error es => .error es
          | .ok (.jsNull, s5) =>
            .error (⟨.parseError, s5.pos + 1, s5.line, "Invalid pair"⟩, s5)
          | .ok (.mr .EXPRESSION (.exprPair objectValues childIndentationLevel), s5) =>
            match pairChildIndentCheck pairKey currentIndentationLevel childIndentationLevel
                objectValues initialPos initialLine s5 with
            | .error es => .error es
            | .ok (_, s6) =>
              pairFinish recur pairKey (.obj objectValues) currentIndentationLevel s6
          | .ok (resultRV, s5) =>
            pairFinish recur pairKey (asValue resultRV) currentIndentationLevel s5

/-- `GuraParser.null` (named `nullLit`; `null` is a reserved-ish name). -/
def nullLit (_recur : Recur) (s : PState) : StepRes RVal :=
  match keyword ["null".data] s with
  | .error es => .error es
  | .ok (_, s1) => .ok (.mr .PRIMITIVE (.value .vNull), s1)

/-- `GuraParser.emptyObject`: the `empty` keyword yields `{}`. -/
def emptyObject (_recur : Recur) (s : PState) : StepRes RVal :=
  match keyword ["empty".data] s with
  | .error es => .error es
  | .ok (_, s1) => .ok (.mr .PRIMITIVE (.value (.obj [])), s1)

/-- `GuraParser.boolean`. -/
def boolean (_recur : Recur) (s : PState) : StepRes RVal :=
  match keyword ["true".data, "false".data] s with
  | .error es => .error es
  | .ok (kw, s1) => .ok (.mr .PRIMITIVE (.value (.bool (decide (kw = "true".data)))), s1)

/-- `GuraParser.unquotedString`: one mandatory key character, the tail
loop, then `trimRight`. -/
def unquotedString (recur : Recur) (s : PState) : StepRes RVal :=
  match char (some keyAcceptableChars) s with
  | .error es => .error es
  | .ok (c0, s1) =>
    match recur (.charsLoop keyAcceptableChars [c0]) s1 with
    | .error es => .error es
    | .ok (csRV, s2) => .ok (.str (jsTrimRight (asStr csRV)), s2)

/-- `GuraParser.number`: one mandatory number character, the tail loop, and
the pure classification/conversion `numberValueOf` of the consumed text
(its `none` is the `"is not a valid number"` `ParseError`). -/
def number (recur : Recur) (s : PState) : StepRes RVal :=
  match char (some acceptableNumberChars) s with
  | .error es => .error es
  | .ok (c0, s1) =>
    match recur (.charsLoop acceptableNumberChars [c0]) s1 with
    | .error es => .error es
    | .ok (csRV, s2) =>
      let chars := asStr csRV
      match numberValueOf chars with
      | some v => .ok (.mr .PRIMITIVE (.value (.num v)), s2)
      | none =>
        .error (⟨.parseError, s2.pos + 1, s2.line,
          "\"" ++ String.mk (removeUnderscores (jsTrimRight chars)) ++
            "\" is not a valid number"⟩, s2)

/-- Reads `n` hexadecimal characters (`this.char('0-9a-fA-F')` in a `for`
loop) for `\u`/`\U` escapes. -/
def readHexChars : Nat → PState → StepRes (List Char)
  | 0, s => .ok ([], s)
  | n + 1, s =>
    match char (some "0-9a-fA-F".data) s with
    | .error es => .error es
    | .ok (c, s1) =>
      match readHexChars n s1 with
      | .error es => .error es
      | .ok (cs, s2) => .ok (c :: cs, s2)

/-- The `while (true)` loop of `basicString`: closing quote ends the loop;
a backslash takes the escape character: line-continuation in multiline
strings, `\u`/`\U` code points, a known escape from `ESCAPE_SEQUENCES`, or
— for any other character — the backslash and that character pushed
literally (`?? char + escape`); `$name` is interpolated; any other
character is pushed as-is. -/
def basicStringLoop (recur : Recur) (quote : List Char) (isMultiline : Bool)
    (acc : List (List Char)) (s : PState) : StepRes RVal :=
  match maybeKeyword [quote] s with
  | .error es => .error es
  | .ok (some _, s1) => .ok (.str acc.flatten, s1)
  | .ok (none, s1) =>
    match char none s1 with
    | .error es => .error es
    | .ok (c, s2) =>
      if c = '\\' then
        match char none s2 with
        | .error es => .error es
        | .ok (escapeCh, s3) =>
          if isMultiline ∧ escapeCh = '\n' then
            match recur .eatWsLoop s3 with
            | .error es => .error es
            | .ok (_, s4) => recur (.basicStringLoop quote isMultiline acc) s4
          else if escapeCh = 'u' ∨ escapeCh = 'U' then
            let numCharsCodePoint := if escapeCh = 'u' then 4 else 8
            match readHexChars numCharsCodePoint s3 with
            | .error es => .error es
            | .ok (codePoint, s4) =>
              let hexValue := digitsToNat 16 codePoint
              recur (.basicStringLoop quote isMultiline (acc ++ [jsFromCharCode hexValue])) s4
          else
            let pushed :=
              match lookupBy escapeSequences escapeCh with
              | some e => [e]
              | none => [c, escapeCh]
            recur (.basicStringLoop quote isMultiline (acc ++ [pushed])) s3
      else if c = '$' then
        let initialPos := s2.pos
        let initialLine := s2.line
        match recur (.charsLoop keyAcceptableChars []) s2 with
        | .error es => .error es
        | .ok (varNameRV, s3) =>
          match getVariableValue (asStr varNameRV) initialPos initialLine s3 with
          | .error es => .error es
          | .ok (v, s4) =>
            recur (.basicStringLoop quote isMultiline (acc ++ [jsToString v])) s4
      else recur (.basicStringLoop quote isMultiline (acc ++ [[c]])) s2

/-- `GuraParser.basicString`: `"""` or `"` delimiter; in the multiline form
a newline directly after the opening delimiter is discarded. -/
def basicString (recur : Recur) (s : PState) : StepRes RVal :=
  match keyword ["\"\"\"".data, "\"".data] s with
  | .error es => .error es
  | .ok (quote, s1) =>
    let isMultiline := decide (quote = "\"\"\"".data)
    let afterOpen : StepRes Unit :=
      if isMultiline then
        match maybeChar (some "\n".data) s1 with
        | .error es => .error es
        | .ok (some _, s2) => .ok ((), { s2 with line := s2.line + 1 })
        | .ok (none, s2) => .ok ((), s2)
      else .ok ((), s1)
    match afterOpen with
    | .error es => .error es
    | .ok (_, s2) =>
      match recur (.basicStringLoop quote isMultiline []) s2 with
      | .error es => .error es
      | .ok (outRV, s3) => .ok (.mr .PRIMITIVE (.value (.str (asStr outRV))), s3)

/-- The `while (true)` loop of `literalString`: raw characters up to the
closing delimiter. -/
def literalStringLoop (recur : Recur) (quote : List Char) (acc : List Char)
    (s : PState) : StepRes RVal :=
  match maybeKeyword [quote] s with
  | .error es => .error es
  | .ok (some _, s1) => .ok (.str acc, s1)
  | .ok (none, s1) =>
    match char none s1 with
    | .error es => .error es
    | .ok (c, s2) => recur (.literalStringLoop quote (acc ++ [c])) s2

/-- `GuraParser.literalString`: `'''` or `'` delimiter, no escapes; in the
multiline form a newline directly after the opening delimiter is
discarded. -/
def literalString (recur : Recur) (s : PState) : StepRes RVal :=
  match keyword ["'''".data, "'".data] s with
  | .error es => .error es
  | .ok (quote, s1) =>
    let isMultiline := decide (quote = "'''".data)
    let afterOpen : StepRes Unit :=
      if isMultiline then
        match maybeChar (some "\n".data) s1 with
        | .error es => .error es
        | .ok (some _, s2) => .ok ((), { s2 with line := s2.line + 1 })
        | .ok (none, s2) => .ok ((), s2)
      else .ok ((), s1)
    match afterOpen with
    | .error es => .error es
    | .ok (_, s2) =>
      match recur (.literalStringLoop quote []) s2 with
      | .error es => .error es
      | .ok (outRV, s3) => .ok (.mr .PRIMITIVE (.value (.str (asStr outRV))), s3)

/-- The fuel-indexed dispatcher tying the mutual recursion of the grammar:
structurally recursive on the fuel, so all runs reduce inside the
kernel. -/
def runCall : Nat → GCall → PState → StepRes RVal
  | 0, _, s => .error (⟨.outOfFuel, s.pos, s.line, "out of fuel"⟩, s)
  | n + 1, c, s =>
    match c with
    | .rule .guraImport => guraImport (runCall n) s
    | .rule .newLine => newLine (runCall n) s
    | .rule .comment => comment (runCall n) s
    | .rule .wsWithIndentation => wsWithIndentation (runCall n) s
    | .rule .ws => ws (runCall n) s
    | .rule .quotedStringWithVar => quotedStringWithVar (runCall n) s
    | .rule .anyType => anyType (runCall n) s
    | .rule .primitiveType => primitiveType (runCall n) s
    | .rule .complexType => complexType (runCall n) s
    | .rule .variableValue => variableValue (runCall n) s
    | .rule .variableDef => variableDef (runCall n) s
    | .rule .list => list (runCall n) s
    | .rule .uselessLine => uselessLine (runCall n) s
    | .rule .expression => expression (runCall n) s
    | .rule .key => key (runCall n) s
    | .rule .pair => pair (runCall n) s
    | .rule .nullLit => nullLit (runCall n) s
    | .rule .emptyObject => emptyObject (runCall n) s
    | .rule .boolean => boolean (runCall n) s
    | .rule .unquotedString => unquotedString (runCall n) s
    | .rule .number => number (runCall n) s
    | .rule .basicString => basicString (runCall n) s
    | .rule .literalString => literalString (runCall n) s
    | .commentLoop => commentLoop (runCall n) s
    | .wsIndentLoop cnt => wsIndentLoop (runCall n) cnt s
    | .wsLoop => wsLoop (runCall n) s
    | .eatWsLoop => eatWsLoop (runCall n) s
    | .charsLoop set acc => charsLoop (runCall n) set acc s
    | .quotedStrLoop q acc => quotedStrLoop (runCall n) q acc s
    | .expressionLoop result ind => expressionLoop (runCall n) result ind s
    | .listLoop result => listLoop (runCall n) result s
    | .basicStringLoop q m acc => basicStringLoop (runCall n) q m acc s
    | .literalStringLoop q acc => literalStringLoop (runCall n) q acc s

/-! ### Import pre-processing, `start`, `parse` -/

/-- Collaborator `existsSync`. -/
def fsExists (fs : List (List Char × List Char)) (path : List Char) : Bool :=
  (lookupBy fs path).isSome

/-- Collaborator `readFileSync` (only called after `fsExists`). -/
def fsRead (fs : List (List Char × List Char)) (path : List Char) : List Char :=
  (lookupBy fs path).getD []

/-- Collaborator `path.join(base, rel)` (simple model: separator insert). -/
def pathJoin (base rel : List Char) : List Char :=
  base ++ '/' :: rel

/-- Collaborator `path.dirname`. -/
def pathDirname (p : List Char) : List Char :=
  if p.contains '/' then ((p.reverse.dropWhile (fun c => c ≠ '/')).drop 1).reverse
  else ".".data

/-- The scanning loop of `computeImports`: repeatedly try
`guraImport`/`variable`/`uselessLine` until none matches, collecting
`[fileName, parentDirPath]` tuples for the import results in encounter
order. -/
def computeImportsScan : Nat → Recur → Option (List Char) →
    List (List Char × Option (List Char)) → PState →
    Except (GuraError × PState) (List (List Char × Option (List Char)) × PState)
  | 0, _, _, _, s => .error (⟨.outOfFuel, s.pos, s.line, "out of fuel"⟩, s)
  | m + 1, recur, parentDirPath, acc, s =>
    if s.pos < s.len then
      match maybeMatch
          [bRule recur "bound guraImport" .guraImport,
           bRule recur "bound variable" .variableDef,
           bRule recur "bound uselessLine" .uselessLine] s with
      | .error es => .error es
      | .ok (none, s1) => .ok (acc, s1)
      | .ok (some matchResult, s1) =>
        match matchResult with
        | .mr .IMPORT (.str f) =>
          computeImportsScan m recur parentDirPath (acc ++ [(f, parentDirPath)]) s1
        | _ => computeImportsScan m recur parentDirPath acc s1
    else .ok (acc, s)

/-- The splicing loop of `computeImports`: resolve each collected import
against its origin directory, reject duplicates
(`DuplicatedImportError`) and missing files (`FileNotFoundError`),
recursively pre-process the imported text (through `auxImport`, a fresh
parser) and append it plus a newline to the accumulated content, recording
the path in `importedFiles`. -/
def processImports
    (auxImport : List Char → Option (List Char) → Except (GuraError × PState) (List Char)) :
    List (List Char × Option (List Char)) → List Char → PState →
    Except (GuraError × PState) (List Char × PState)
  | [], finalContent, s => .ok (finalContent, s)
  | (fileName, originFilePath) :: rest, finalContent, s =>
    let fileToImport :=
      match originFilePath with
      | some o => pathJoin o fileName
      | none => fileName
    if s.importedFiles.contains fileToImport then
      .error (⟨.duplicatedImport, s.pos - (fileToImport.length : Int) - 1, s.line,
        "The file \"" ++ String.mk fileToImport ++ "\" has been already imported"⟩, s)
    else if ¬fsExists s.fs fileToImport then
      .error (⟨.fileNotFound, 0, 0,
        "The file \"" ++ String.mk fileToImport ++ "\" does not exist"⟩, s)
    else
      let content := fsRead s.fs fileToImport
      match auxImport content (some (pathDirname fileToImport)) with
      | .error es => .error es
      | .ok contentWithImport =>
        processImports auxImport rest (finalContent ++ contentWithImport ++ ['\n'])
          { s with importedFiles := s.importedFiles ++ [fileToImport] }

/-- `GuraParser.computeImports`: scan the import prelude; when any imports
were collected, splice their (recursively pre-processed, via a fresh
auxiliary parser — the inlined `getTextWithImports`) contents before the
rest of the text and `restartParams` on the combined text. -/
def computeImports : Nat → Option (List Char) → PState →
    Except (GuraError × PState) PState
  | 0, _, s => .error (⟨.outOfFuel, s.pos, s.line, "out of fuel"⟩, s)
  | n + 1, parentDirPath, s =>
    match computeImportsScan (n + 1) (runCall n) parentDirPath [] s with
    | .error es => .error es
    | .ok (filesToImport, s1) =>
      if filesToImport.length > 0 then
        let auxImport := fun content dirPath =>
          match computeImports n dirPath (restartParams content (freshState s1.env s1.fs)) with
          | .error es => .error es
          | .ok s2 => .ok s2.text
        match processImports auxImport filesToImport [] s1 with
        | .error es => .error es
        | .ok (finalContent, s2) =>
          .ok (restartParams (finalContent ++ jsSubstringFrom s2.text (s2.pos + 1)) s2)
      else .ok s1

/-- `GuraParser.start`: import pre-processing, exactly one expression,
trailing whitespace/new lines; `null` result for an empty document. -/
def start : Nat → PState →
    Except (GuraError × PState) (Option (List (List Char × GValue)) × PState)
  | 0, s => .error (⟨.outOfFuel, s.pos, s.line, "out of fuel"⟩, s)
  | n + 1, s =>
    match computeImports n none s with
    | .error es => .error es
    | .ok s1 =>
      match matchRules [bRule (runCall n) "bound expression" .expression] s1 with
      | .error es => .error es
      | .ok (result, s2) =>
        match runCall n .eatWsLoop s2 with
        | .error es => .error es
        | .ok (_, s3) =>
          match result with
          | .mr .EXPRESSION (.exprPair obj _) => .ok (some obj, s3)
          | _ => .ok (none, s3)

/-- The module-level `parse(text)`: a fresh `GuraParser`, `restartParams`,
`start`, `assertEnd`, and `result ?? {}`. -/
def parse (fuel : Nat) (env fs : List (List Char × List Char)) (text : List Char) :
    Except (GuraError × PState) (List (List Char × GValue) × PState) :=
  match start fuel (restartParams text (freshState env fs)) with
  | .error es => .error es
  | .ok (result, s1) =>
    match assertEnd s1 with
    | .error es => .error es
    | .ok (_, s2) => .ok (result.getD [], s2)

/-! ### The serializer `dump` -/

/-- `GuraParser.elemIsObj`: non-null, of object type, and not an array. -/
def elemIsObj : GValue → Bool
  | .obj _ => true
  | _ => false

/-- The entries of an object value (`Object.entries`). -/
def objEntries : GValue → List (List Char × GValue)
  | .obj es => es
  | _ => []

/-- JS `value.toString()` for a finite number (the exact-rational stand-in
for JS double printing; the claims never evaluate the float case). -/
def jsNumToString : JsNum → List Char
  | .int n => (toString n).data
  | .float q => if q.den = 1 then (toString q.num).data else (toString q).data
  | .inf neg => if neg then "-Infinity".data else "Infinity".data
  | .nan => "NaN".data

/-- JS `split('\n')`. -/
def splitOnNl (l : List Char) : List (List Char) :=
  l.splitOn '\n'

/-- `GuraParser.dump` (the recursive stringifier), with fuel for the
recursion through lists and objects. -/
def dumpValue : Nat → GValue → List Char
  | 0, _ => []
  | n + 1, value =>
    match value with
    | .vNull => "null".data
    | .str sv =>
      let body := (sv.map (fun c =>
        match lookupBy sequencesToEscape c with
        | some e => e
        | none => [c])).flatten
      '"' :: body ++ "\"".data
    | .num (.inf false) => "inf".data
    | .num (.inf true) => "-inf".data
    | .num .nan => "nan".data
    | .num v => jsNumToString v
    | .bool b => if b then "true".data else "false".data
    | .list valueAr =>
      let shouldMultiline :=
        valueAr.any (fun e => elemIsObj e ∧ (objEntries e).length > 0)
      if ¬shouldMultiline then
        "[".data ++ (List.intercalate ", ".data (valueAr.map (dumpValue n))) ++ "]".data
      else
        let lastIdx := valueAr.length - 1
        let body := (valueAr.enum).foldl (fun rs p =>
          let stringifiedValue := jsTrimRight (dumpValue n p.2)
          let indented :=
            if stringifiedValue.contains '\n' then
              List.intercalate "\n".data
                ((splitOnNl stringifiedValue).map (fun l => indentChars ++ l))
            else indentChars ++ stringifiedValue
          rs ++ "\n".data ++ indented ++ (if p.1 < lastIdx then ",".data else []))
          "[".data
        body ++ "\n]".data
    | .obj entries =>
      if entries.length = 0 then "empty".data
      else
        entries.foldl (fun rs p =>
          let rs := rs ++ p.1 ++ ":".data
          if elemIsObj p.2 then
            let stringifiedValue := jsTrimRight (dumpValue n p.2)
            if (objEntries p.2).length > 0 then
              rs ++ "\n".data ++
                ((splitOnNl stringifiedValue).map
                  (fun l => indentChars ++ l ++ "\n".data)).flatten
            else rs ++ " ".data ++ stringifiedValue ++ "\n".data
          else rs ++ " ".data ++ dumpValue n p.2 ++ "\n".data) []

/-- The module-level `dump(data)`: stringify then
`trimStart().trimEnd()`. -/
def dump (fuel : Nat) (data : GValue) : List Char :=
  jsTrimRight (jsTrimStart (dumpValue fuel data))

/-! ### Observation helpers and concrete run configurations used by the
verification theorems -/

/-- The kind of the thrown error, if a step threw. -/
def errKindOf {α : Type} (r : StepRes α) : Option ErrKind :=
  match r with
  | .error (e, _) => some e.kind
  | .ok _ => none

/-- The reported position of the thrown error, if a step threw. -/
def errPosOf {α : Type} (r : StepRes α) : Option Int :=
  match r with
  | .error (e, _) => some e.pos
  | .ok _ => none

/-- Is the value a float in the sense of the spec's data model, which
groups `±Infinity` and `NaN` under float? -/
def isFloatNum : JsNum → Bool
  | .int _ => false
  | _ => true

/-- Was the value produced by the `parseFloat` conversion path? -/
def isFloatConstructor : JsNum → Bool
  | .float _ => true
  | _ => false

/-- Membership in the character class `ACCEPTABLE_NUMBER_CHARS`
(`0-9A-Fa-fxobinEe+._-`), spelled out as a predicate. -/
def isAcceptableNumberChar (c : Char) : Bool :=
  ('0' ≤ c ∧ c ≤ '9') ∨ ('A' ≤ c ∧ c ≤ 'F') ∨ ('a' ≤ c ∧ c ≤ 'f') ∨
  c = 'x' ∨ c = 'o' ∨ c = 'b' ∨ c = 'i' ∨ c = 'n' ∨ c = 'E' ∨ c = 'e' ∨
  c = '+' ∨ c = '.' ∨ c = '_' ∨ c = '-'

/-- Does the consumed text contain a float marker (`E`, `e` or `.`)
anywhere? -/
def hasFloatMarker (chars : List Char) : Bool :=
  chars.any (fun c => c = 'E' ∨ c = 'e' ∨ c = '.')

/-- A parser over the one-character text `"a"` whose single character has
already been consumed (`pos = 0`), so that every further read fails at the
end-of-string position `1`. -/
def eosState : PState := { restartParams "a".data (freshState [] []) with pos := 0 }

/-- A rule that demands the character `b` (as a JS bound method it would be
named `"bound char"`); at `eosState` it fails with a `ParseError` at
position `1`. -/
def eosRule : Rule Char := ⟨"bound char", char (some "b".data)⟩

/-- The end-of-string `ParseError` that `eosRule` throws at `eosState`. -/
def eosError : GuraError := ⟨.parseError, 1, 1, "Expected [b] but got end of string"⟩

/-- `pair` run configuration: the text `"  a: 1"` (two spaces of
indentation) with the indentation stack holding a previous width `4`. -/
def width2Stack4State : PState :=
  { restartParams "  a: 1".data (freshState [] []) with indentationLevels := [4] }

/-- `pair` run configuration: the text `"b: 1"` (width 0) with the
indentation stack holding a previous width `4`: a shallower sibling that
must end the nested block. -/
def width0Stack4State : PState :=
  { restartParams "b: 1".data (freshState [] []) with indentationLevels := [4] }

/-- `pair` run configuration: the text `"  a: 1"` with an empty
indentation stack. -/
def width2FreshState : PState := restartParams "  a: 1".data (freshState [] [])

/-- `expression`-loop configuration: the remaining text `"foo: 2"` at the
sibling width 0, with the key `foo` already accumulated. -/
def dupKeyState : PState :=
  { restartParams "foo: 2".data (freshState [] []) with indentationLevels := [0] }

/-- The mapping accumulated before `dupKeyState`: `foo` bound once. -/
def dupKeyResult : List (List Char × GValue) := [("foo".data, .num (.int 1))]

/-- Variable-lookup configuration: the local table binds `x` to `5` while
the environment binds both `x` and `y`. -/
def varLookupState : PState :=
  { restartParams "$x".data (freshState [(['x'], "envx".data), (['y'], "envy".data)] [])
      with vars := [(['x'], .num (.int 5))] }

/-- A parser positioned on the text `"inf"`. -/
def infNumberState : PState := restartParams "inf".data (freshState [] [])

/-- A basic-string loop configuration: the remaining text is `\q"` (an
escaped character that is not a defined escape). -/
def unknownEscapeState : PState := restartParams "\\q\"".data (freshState [] [])

/-- A one-character text with nothing consumed, used to exercise the bad
character range `z-a`. -/
def badRangeState : PState := restartParams "k".data (freshState [] [])

/-- The document value returned by a successful `parse`, if any. -/
def parseValueOf (r : Except (GuraError × PState) (List (List Char × GValue) × PState)) :
    Option (List (List Char × GValue)) :=
  match r with
  | .ok (v, _) => some v
  | .error _ => none

/-! ## Verification theorems -/

/-- C1: the round-trip `parse(dump(parse(D)))` fails on the empty document.
`parse ""` is accepted and yields the empty mapping (as the repository's own
`empty` test asserts), `dump {}` renders the top-level empty mapping as the
bare word `empty`, and `parse "empty"` throws a `ParseError` (a top-level
`empty` is not a pair), so `parse(dump(parse("")))` throws instead of
returning a value deep-equal to `parse("")`.  The document `""` has no
imports and no variable definitions or references, so the claim's
universally quantified round-trip property is violated by the code. -/
theorem C1_parse_dump_roundtrip_fails_on_empty_document :
    parse 200 [] [] "".data = .ok ([], restartParams [] (freshState [] [])) ∧
    dump 50 (GValue.obj []) = "empty".data ∧
    errKindOf (parse 200 [] [] (dump 50 (GValue.obj []))) = some .parseError :=
  ⟨rfl, rfl, rfl⟩

/-- C2 (counterexample): with the one-character text `"a"` fully consumed,
a rule demanding a character fails with a `ParseError` at the furthest
position `1` (one past the last character); two such rules tie there, yet
the composite error raised after both fail reports position
`0 = min(text.length - 1, 1)`, not the furthest position `1` — refuting the
claim that the error raised when all rules fail always reports the furthest
failure position seen. -/
theorem C2_composite_error_position_counterexample :
    eosRule.fn eosState = .error (eosError, eosState) ∧
    eosError.pos = 1 ∧ eosError.kind = .parseError ∧
    matchRules [eosRule, eosRule] eosState =
      .error (⟨.parseError, 0, 1, compositeMessage ["bound char", "bound char"]⟩, eosState) :=
  ⟨rfl, rfl, rfl, rfl⟩

/-- C2 (amended): the `match` combinator (1) returns a succeeding rule's
result unchanged; (2) on a rule failing with a `ParseError` restores both
`pos` and `line` to their values before the attempt and tries the next rule
in declared order, tracking the furthest failure position and accumulating
the rules that tie at it (a strictly further failure resets the
accumulator to that rule alone); (3) when all rules have failed and exactly
one rule is accumulated at the furthest position, that rule's own error —
whose position is the furthest failure position — is rethrown; (4)
otherwise the composite error (naming every accumulated rule) is raised at
`min(text.length - 1, furthest)`, which is *below* the furthest position
when the tied failures lie at the end-of-string position. -/
theorem C2_match_backtracking_and_error_tracking :
    (∀ (α : Type) (r : Rule α) (rest : List (Rule α)) (lp : Int)
        (lex : Option GuraError) (lr : List String) (s s1 : PState) (a : α),
        r.fn s = .ok (a, s1) → matchLoop (r :: rest) lp lex lr s = .ok (a, s1)) ∧
    (∀ (α : Type) (r : Rule α) (rest : List (Rule α)) (lp : Int)
        (lex : Option GuraError) (lr : List String) (s s1 : PState) (e : GuraError),
        r.fn s = .error (e, s1) → e.kind = .parseError →
        matchLoop (r :: rest) lp lex lr s =
          matchLoop rest (if e.pos > lp then e.pos else lp)
            (if e.pos > lp then some e else lex)
            (if e.pos > lp then [r.name]
             else if e.pos = lp then lr ++ [r.name] else lr)
            { s1 with pos := s.pos, line := s.line }) ∧
    (∀ (α : Type) (lp : Int) (ex : GuraError) (nm : String) (s : PState),
        matchLoop ([] : List (Rule α)) lp (some ex) [nm] s = .error (ex, s)) ∧
    (∀ (α : Type) (lp : Int) (lex : Option GuraError) (names : List String) (s : PState),
        names.length ≠ 1 →
        matchLoop ([] : List (Rule α)) lp lex names s =
          .error (⟨.parseError, min ((s.text.length : Int) - 1) lp, s.line,
            compositeMessage names⟩, s)) := by
  refine ⟨?_, ?_, ?_, ?_⟩
  · intro α r rest lp lex lr s s1 a h
    simp [matchLoop, h]
  · intro α r rest lp lex lr s s1 e h hk
    by_cases h1 : e.pos > lp
    · simp [matchLoop, h, hk, h1]
    · by_cases h2 : e.pos = lp
      · simp [matchLoop, h, hk, h1, h2]
      · simp [matchLoop, h, hk, h1, h2]
  · intro α lp ex nm s
    simp [matchLoop]
  · intro α lp lex names s h
    simp [matchLoop, h]

/-- Witness for the amended C2: the concrete two-rule tie of the
counterexample, driven through the step equation of the theorem. -/
theorem C2_match_backtracking_witness :
    matchRules [eosRule, eosRule] eosState =
      .error (⟨.parseError, 0, 1, compositeMessage ["bound char", "bound char"]⟩, eosState) := by
  show matchLoop [eosRule, eosRule] (-1) none [] eosState = _
  rw [C2_match_backtracking_and_error_tracking.2.1 Char eosRule [eosRule]
    (-1) none [] eosState eosState eosError rfl rfl]
  rfl

/-- C6: variable resolution order.  `getVariableValue` returns the local
variable table's binding whenever the name is present (the environment is
never consulted then, even when it also defines the name); otherwise the
process environment's text is returned; otherwise a
`VariableNotDefinedError` is raised.  The final conjunct drives the
`variableValue` rule (`$x`) through a state in which both the table and the
environment bind `x`: the table's value `5` wins. -/
theorem C6_variable_lookup_precedence :
    (∀ (s : PState) (k : List Char) (p : Int) (ln : Nat) (v : GValue),
        lookupBy s.vars k = some v → getVariableValue k p ln s = .ok (v, s)) ∧
    (∀ (s : PState) (k : List Char) (p : Int) (ln : Nat) (t : List Char),
        lookupBy s.vars k = none → lookupBy s.env k = some t →
        getVariableValue k p ln s = .ok (.str t, s)) ∧
    (∀ (s : PState) (k : List Char) (p : Int) (ln : Nat),
        lookupBy s.vars k = none → lookupBy s.env k = none →
        getVariableValue k p ln s =
          .error (⟨.variableNotDefined, p, ln,
            "Variable \"" ++ String.mk k ++
              "\" is not defined in Gura nor as environment variable"⟩, s)) ∧
    runCall 100 (.rule .variableValue) varLookupState =
      .ok (.mr .PRIMITIVE (.value (.num (.int 5))), { varLookupState with pos := 1 }) := by
  refine ⟨?_, ?_, ?_, rfl⟩
  · intro s k p ln v h
    simp [getVariableValue, h]
  · intro s k p ln t h1 h2
    simp [getVariableValue, h1, h2]
  · intro s k p ln h1 h2
    simp [getVariableValue, h1, h2]

/-- Witness for C6 at the concrete lookup state: the table shadows the
environment for `x`, the environment answers for `y`, and `z` raises. -/
theorem C6_variable_lookup_precedence_witness :
    getVariableValue ['x'] 0 1 varLookupState = .ok (.num (.int 5), varLookupState) ∧
    getVariableValue ['y'] 0 1 varLookupState = .ok (.str "envy".data, varLookupState) ∧
    errKindOf (getVariableValue ['z'] 0 1 varLookupState) = some .variableNotDefined := by
  refine ⟨C6_variable_lookup_precedence.1 varLookupState ['x'] 0 1 _ rfl,
    C6_variable_lookup_precedence.2.1 varLookupState ['y'] 0 1 _ rfl rfl, ?_⟩
  rw [C6_variable_lookup_precedence.2.2.1 varLookupState ['z'] 0 1 rfl rfl]
  rfl

/-- C10: the speculative combinators recover only from `ParseError`.  (1)
`match` rethrows any other exception immediately, with the failing rule's
own state (no position restoration) and without trying further rules; (2)
the shared catch of `maybeChar`/`maybeMatch`/`maybeKeyword` (all three are
`maybeCatch` of their underlying step) likewise rethrows it unchanged; (3)
`splitCharRanges` on the bad character range `z-a` throws the internal
`ValueError`; (4) that `ValueError` escapes from `char` — and hence from
`maybeChar` — with the state untouched. -/
theorem C10_only_parse_errors_are_recovered :
    (∀ (α : Type) (r : Rule α) (rest : List (Rule α)) (lp : Int)
        (lex : Option GuraError) (lr : List String) (s s1 : PState) (e : GuraError),
        r.fn s = .error (e, s1) → e.kind ≠ .parseError →
        matchLoop (r :: rest) lp lex lr s = .error (e, s1)) ∧
    (∀ (α : Type) (x : StepRes α) (s1 : PState) (e : GuraError),
        x = .error (e, s1) → e.kind ≠ .parseError → maybeCatch x = .error (e, s1)) ∧
    splitCharRanges "z-a".data = .error ⟨.valueError, 0, 0, "Bad character range"⟩ ∧
    (∀ s : PState, s.pos < s.len →
        char (some "z-a".data) s = .error (⟨.valueError, 0, 0, "Bad character range"⟩, s) ∧
        maybeChar (some "z-a".data) s = .error (⟨.valueError, 0, 0, "Bad character range"⟩, s)) := by
  refine ⟨?_, ?_, rfl, ?_⟩
  · intro α r rest lp lex lr s s1 e h hk
    simp [matchLoop, h, hk]
  · intro α x s1 e h hk
    simp [maybeCatch, h, hk]
  · intro s h
    have hz : splitCharRanges "z-a".data =
        .error ⟨.valueError, 0, 0, "Bad character range"⟩ := rfl
    have hc : char (some "z-a".data) s =
        .error (⟨.valueError, 0, 0, "Bad character range"⟩, s) := by
      unfold char
      rw [if_neg (by omega : ¬ s.pos ≥ s.len)]
      simp [hz]
    exact ⟨hc, by simp [maybeChar, maybeCatch, hc]⟩

/-- Witness for C10: the concrete `z-a` range aborts a `maybeChar` with the
`ValueError` (state untouched, no recovery). -/
theorem C10_only_parse_errors_are_recovered_witness :
    maybeChar (some "z-a".data) badRangeState =
      .error (⟨.valueError, 0, 0, "Bad character range"⟩, badRangeState) :=
  (C10_only_parse_errors_are_recovered.2.2.2 badRangeState (by decide)).2

/-- C3 (counterexample): on the text `"  a: 1"` (width 2) with the stack
top 4, the claim's third case (`w < top`: pop one level, rewind, return the
null sentinel without raising) does not happen: `pair` raises an
`InvalidIndentationError` (at `posBeforePair = -1`) because the `% 4`
divisibility check precedes the stack comparison. -/
theorem C3_width_not_multiple_of_four_counterexample :
    width2Stack4State.indentationLevels = [4] ∧
    errKindOf (runCall 100 (.rule .pair) width2Stack4State) = some .invalidIndentation ∧
    errPosOf (runCall 100 (.rule .pair) width2Stack4State) = some (-1) :=
  ⟨rfl, rfl, rfl⟩

/-- C3 (amended): provided the measured width `w` is a multiple of 4, the
stack transition of `pair` after the key is parsed is exactly the claimed
one: empty stack or `w >` top pushes `w`; `w =` top leaves the stack
unchanged and continues as a sibling; `w <` top pops exactly one level,
rewinds `pos` to the position recorded before the pair's indentation was
consumed, and — by the final conjunct, which chains the check back into the
`pair` rule — `pair` returns the `null` no-match sentinel without
raising. -/
theorem C3_pair_indentation_stack_transitions :
    (∀ (w : Nat) (p : Int) (s : PState), w % 4 = 0 →
      (s.indentationLevels.head? = none →
        pairIndentCheck w p s =
          .ok (.inr { s with indentationLevels := w :: s.indentationLevels })) ∧
      (∀ t, s.indentationLevels.head? = some t → w > t →
        pairIndentCheck w p s =
          .ok (.inr { s with indentationLevels := w :: s.indentationLevels })) ∧
      (∀ t, s.indentationLevels.head? = some t → w = t →
        pairIndentCheck w p s = .ok (.inr s)) ∧
      (∀ t, s.indentationLevels.head? = some t → w < t →
        pairIndentCheck w p s =
          .ok (.inl { s with pos := p, indentationLevels := s.indentationLevels.tail }))) ∧
    (∀ (recur : Recur) (s : PState) (cilOpt : Option RVal) (keyRV : RVal)
        (o : Option RVal) (s1 s2 s3 s4 : PState),
      maybeMatch [bRule recur "bound wsWithIndentation" .wsWithIndentation] s = .ok (cilOpt, s1) →
      matchRules [bRule recur "bound key" .key] s1 = .ok (keyRV, s2) →
      maybeMatch [bRule recur "bound ws" .ws] s2 = .ok (o, s3) →
      pairIndentCheck (asNat cilOpt) s.pos s3 = .ok (.inl s4) →
      pair recur s = .ok (.jsNull, s4)) := by
  constructor
  · intro w p s h4
    have hmod : ¬ w % 4 ≠ 0 := by omega
    refine ⟨?_, ?_, ?_, ?_⟩
    · intro hh
      cases hl : s.indentationLevels with
      | nil => simp [pairIndentCheck, getLastIndentationLevel, hmod, hl]
      | cons a l => simp [hl] at hh
    · intro t hh hgt
      cases hl : s.indentationLevels with
      | nil => simp [hl] at hh
      | cons a l =>
        simp only [hl, List.head?] at hh
        cases hh
        simp [pairIndentCheck, getLastIndentationLevel, hmod, hl, hgt]
    · intro t hh heq
      cases hl : s.indentationLevels with
      | nil => simp [hl] at hh
      | cons a l =>
        simp only [hl, List.head?] at hh
        cases hh
        subst heq
        simp [pairIndentCheck, getLastIndentationLevel, hmod, hl]
    · intro t hh hlt
      cases hl : s.indentationLevels with
      | nil => simp [hl] at hh
      | cons a l =>
        simp only [hl, List.head?] at hh
        cases hh
        simp [pairIndentCheck, getLastIndentationLevel, hmod, hl, hlt,
          Nat.not_lt.mpr (Nat.le_of_lt hlt), removeLastIndentationLevel]
  · intro recur s cilOpt keyRV o s1 s2 s3 s4 h1 h2 h3 h4
    simp only [pair, h1, h2, h3, h4]

/-- Witness for the amended C3: on `"b: 1"` (width 0) under a stack top 4,
`pair` pops the level, rewinds to the start and returns the `null`
sentinel. -/
theorem C3_pair_indentation_stack_transitions_witness :
    pair (runCall 50) width0Stack4State =
      .ok (.jsNull, { width0Stack4State with indentationLevels := [] }) :=
  C3_pair_indentation_stack_transitions.2 (runCall 50) width0Stack4State
    (some (.nat 0)) (.str ['b']) (some .undef)
    width0Stack4State { width0Stack4State with pos := 1 }
    { width0Stack4State with pos := 2 }
    { width0Stack4State with indentationLevels := [] } rfl rfl rfl rfl

/-- C4: whenever the pair rule measures an indentation width that is not a
multiple of 4 and then parses a key, it raises an
`InvalidIndentationError` whose position is the position recorded before
the indentation was consumed — for an arbitrary state, hence at every
nesting depth (the indentation stack is unconstrained). -/
theorem C4_indentation_not_divisible_by_four_errors :
    ∀ (recur : Recur) (s : PState) (cilOpt : Option RVal) (keyRV : RVal)
      (o : Option RVal) (s1 s2 s3 : PState),
      maybeMatch [bRule recur "bound wsWithIndentation" .wsWithIndentation] s = .ok (cilOpt, s1) →
      matchRules [bRule recur "bound key" .key] s1 = .ok (keyRV, s2) →
      maybeMatch [bRule recur "bound ws" .ws] s2 = .ok (o, s3) →
      asNat cilOpt % 4 ≠ 0 →
      errKindOf (pair recur s) = some .invalidIndentation ∧
      errPosOf (pair recur s) = some s.pos := by
  intro recur s cilOpt keyRV o s1 s2 s3 h1 h2 h3 h4
  simp only [pair, h1, h2, h3]
  simp [pairIndentCheck, getLastIndentationLevel, h4, errKindOf, errPosOf]

/-- Witness for C4: `"  a: 1"` (width 2, empty stack) raises the
indentation error at the pre-indentation position `-1`. -/
theorem C4_indentation_not_divisible_by_four_errors_witness :
    errKindOf (pair (runCall 50) width2FreshState) = some .invalidIndentation ∧
    errPosOf (pair (runCall 50) width2FreshState) = some (-1) :=
  C4_indentation_not_divisible_by_four_errors (runCall 50) width2FreshState
    (some (.nat 2)) (.str ['a']) (some .undef)
    { width2FreshState with pos := 1 } { width2FreshState with pos := 3 }
    { width2FreshState with pos := 4 } rfl rfl rfl (by decide)

/-- C5: inside one run of the `expression` loop, if the matched item is a
pair whose key is already present in the accumulated mapping, the loop
raises a `DuplicatedKeyError` (at the item's start plus one plus its
indentation) instead of extending the mapping — for arbitrary loop state,
i.e. any object body in which two pairs produce the same key within one
expression. -/
theorem C5_duplicate_key_in_expression_errors :
    ∀ (recur : Recur) (result : List (List Char × GValue)) (ind : Nat)
      (s s1 : PState) (k : List Char) (v : GValue) (i : Nat),
      s.pos < s.len →
      matchRules
        [bRule recur "bound variable" .variableDef,
         bRule recur "bound pair" .pair,
         bRule recur "bound uselessLine" .uselessLine] s =
        .ok (.mr .PAIR (.pairTriple k v i), s1) →
      (lookupBy result k).isSome = true →
      expressionLoop recur result ind s =
        .error (⟨.duplicatedKey, s.pos + 1 + (i : Int), s.line,
          "The key \"" ++ String.mk k ++ "\" has been already defined"⟩, s1) := by
  intro recur result ind s s1 k v i hlt hmatch hdup
  unfold expressionLoop
  rw [if_pos hlt]
  simp only [hmatch]
  simp [hdup]

/-- Witness for C5: the second `foo` pair (`"foo: 2"` at sibling width 0,
`foo` already accumulated) raises the duplicate-key error. -/
theorem C5_duplicate_key_in_expression_errors_witness :
    expressionLoop (runCall 100) dupKeyResult 0 dupKeyState =
      .error (⟨.duplicatedKey, 0, 1,
        "The key \"" ++ String.mk "foo".data ++ "\" has been already defined"⟩,
        { dupKeyState with pos := 5 }) :=
  C5_duplicate_key_in_expression_errors (runCall 100) dupKeyResult 0 dupKeyState
    { dupKeyState with pos := 5 } "foo".data (.num (.int 2)) 0
    (by decide) rfl rfl

/-- C8: when a pair's value is a nested expression with reported width `c`
against the pair's own width `w`: equality raises an
`InvalidIndentationError` (sibling written as child), an absolute
difference other than 4 raises an `InvalidIndentationError`, and the check
passes exactly when the absolute difference is 4.  The closing conjuncts
run `parse` end-to-end: `"a:\nb: 1"` (difference 0) and
`"a:\n        b: 1"` (difference 8) raise indentation errors, while
`"a:\n    b: 1"` (difference 4) succeeds with the object as the pair's
value. -/
theorem C8_child_indentation_must_differ_by_four :
    (∀ (k : List Char) (w c : Nat) (ov : List (List Char × GValue))
        (ip : Int) (il : Nat) (s : PState),
      (c = w → errKindOf (pairChildIndentCheck k w c ov ip il s) = some .invalidIndentation) ∧
      (((w : Int) - (c : Int)).natAbs ≠ 4 →
        errKindOf (pairChildIndentCheck k w c ov ip il s) = some .invalidIndentation) ∧
      (((w : Int) - (c : Int)).natAbs = 4 →
        pairChildIndentCheck k w c ov ip il s = .ok ((), s))) ∧
    errKindOf (parse 300 [] [] "a:\nb: 1".data) = some .invalidIndentation ∧
    errKindOf (parse 400 [] [] "a:\n        b: 1".data) = some .invalidIndentation ∧
    parseValueOf (parse 400 [] [] "a:\n    b: 1".data) =
      some [("a".data, .obj [("b".data, .num (.int 1))])] := by
  refine ⟨?_, rfl, rfl, rfl⟩
  intro k w c ov ip il s
  refine ⟨?_, ?_, ?_⟩
  · intro h
    simp [pairChildIndentCheck, h, errKindOf]
  · intro h
    by_cases hcw : c = w
    · simp [pairChildIndentCheck, hcw, errKindOf]
    · simp [pairChildIndentCheck, hcw, h, errKindOf]
  · intro h
    have hcw : ¬ c = w := by omega
    simp [pairChildIndentCheck, hcw, h]

/-- Witness for C8 at concrete widths: `c = w = 0` errors, `w = 0, c = 8`
errors, `w = 0, c = 4` passes. -/
theorem C8_child_indentation_must_differ_by_four_witness :
    errKindOf (pairChildIndentCheck [] 0 0 [] 0 1 badRangeState) = some .invalidIndentation ∧
    errKindOf (pairChildIndentCheck [] 0 8 [] 0 1 badRangeState) = some .invalidIndentation ∧
    pairChildIndentCheck [] 0 4 [] 0 1 badRangeState = .ok ((), badRangeState) :=
  ⟨(C8_child_indentation_must_differ_by_four.1 [] 0 0 [] 0 1 badRangeState).1 rfl,
   (C8_child_indentation_must_differ_by_four.1 [] 0 8 [] 0 1 badRangeState).2.1 (by decide),
   (C8_child_indentation_must_differ_by_four.1 [] 0 4 [] 0 1 badRangeState).2.2 (by decide)⟩

/-- C9: in the basic-string loop, a backslash followed by a character that
is not a defined escape, not `u`/`U`, and not a newline in a multiline
string, raises no error: the backslash and that character are appended
literally and the loop continues two characters further on. -/
theorem C9_unknown_escape_kept_literally :
    ∀ (recur : Recur) (quote : List Char) (isMultiline : Bool)
      (acc : List (List Char)) (s : PState) (c : Char),
      maybeKeyword [quote] s = .ok (none, s) →
      s.pos < s.len →
      jsCharAt s.text (s.pos + 1) = some '\\' →
      s.pos + 1 < s.len →
      jsCharAt s.text (s.pos + 2) = some c →
      lookupBy escapeSequences c = none →
      ¬(c = 'u' ∨ c = 'U') →
      ¬(isMultiline ∧ c = '\n') →
      basicStringLoop recur quote isMultiline acc s =
        recur (.basicStringLoop quote isMultiline (acc ++ [['\\', c]]))
          { s with pos := s.pos + 2 } := by
  intro recur quote isMultiline acc s c hq hlt h1 hlt2 h2 hesc hUu hnl
  have h2' : jsCharAt s.text (s.pos + 1 + 1) = some c := by
    rw [show s.pos + 1 + 1 = s.pos + 2 by omega]
    exact h2
  have hc1 : char none s = .ok ('\\', { s with pos := s.pos + 1 }) := by
    unfold char
    rw [if_neg (by omega : ¬ s.pos ≥ s.len)]
    simp [h1]
  have hc2 : char none { s with pos := s.pos + 1 } =
      .ok (c, { s with pos := s.pos + 1 + 1 }) := by
    unfold char
    rw [if_neg (by simp; omega : ¬ ({ s with pos := s.pos + 1 } : PState).pos ≥
      ({ s with pos := s.pos + 1 } : PState).len)]
    simp [h2']
  unfold basicStringLoop
  rw [hq]
  simp only [hc1]
  simp only [hc2]
  simp only [if_true]
  rw [if_neg hnl, if_neg hUu]
  simp only [hesc]
  rw [show s.pos + 1 + 1 = s.pos + 2 by omega]

/-- No character of `ACCEPTABLE_NUMBER_CHARS` is JS whitespace. -/
theorem isJsWs_eq_false_of_acceptable (c : Char)
    (h : isAcceptableNumberChar c = true) : isJsWs c = false := by
  by_contra hw
  have hw' : isJsWs c = true := by
    cases hx : isJsWs c
    · exact absurd hx hw
    · rfl
  simp only [isJsWs, decide_eq_true_eq] at hw'
  rcases hw' with rfl | rfl | rfl | rfl | rfl | rfl <;>
    exact absurd h (by decide)

/-- `dropWhile` is the identity when the predicate fails on every
element (it already fails at the head). -/
theorem dropWhile_eq_self_of_forall_false {α : Type} (p : α → Bool) (xs : List α)
    (h : ∀ c ∈ xs, p c = false) : xs.dropWhile p = xs := by
  cases xs with
  | nil => rfl
  | cons a t => simp [List.dropWhile_cons, h a (by simp)]

/-- `trimRight` is the identity on text made of acceptable number
characters. -/
theorem jsTrimRight_eq_self_of_acceptable (l : List Char)
    (h : ∀ c ∈ l, isAcceptableNumberChar c = true) : jsTrimRight l = l := by
  unfold jsTrimRight
  rw [dropWhile_eq_self_of_forall_false isJsWs l.reverse
    (fun c hc => isJsWs_eq_false_of_acceptable c (h c (List.mem_reverse.mp hc)))]
  exact List.reverse_reverse l

/-- `parseInt` without a radix yields `NaN` when the string starts with a
float marker (`.`, `e` or `E`): no digit can be consumed. -/
theorem jsParseIntAuto_marker_head_eq_none (m : Char) (rest : List Char)
    (hm : m = '.' ∨ m = 'e' ∨ m = 'E') : jsParseIntAuto (m :: rest) = none := by
  rcases hm with rfl | rfl | rfl <;>
    simp [jsParseIntAuto, List.dropWhile_cons, isJsWs, parseDigits,
      List.takeWhile_cons, digitVal]

/-- A marker in the tail is a marker in the whole list. -/
theorem any_of_any_drop_one {α : Type} (p : α → Bool) (xs : List α)
    (h : (xs.drop 1).any p = true) : xs.any p = true := by
  cases xs with
  | nil => simp at h
  | cons a t =>
    simp only [List.drop_one, List.tail_cons] at h
    simp [List.any_cons, h]

/-- C7 (counterexample): the literal `inf` is accepted by the number rule,
its consumed characters contain no `E`, `e` or `.`, yet the result
(`Infinity`) is a float in the spec's own data-model sense ("float
(including ±infinity/NaN)") — refuting the claimed "float if and only if
the consumed characters include `E`, `e` or `.`". -/
theorem C7_inf_literal_counterexample :
    runCall 100 (.rule .number) infNumberState =
      .ok (.mr .PRIMITIVE (.value (.num (.inf false))), { infNumberState with pos := 2 }) ∧
    hasFloatMarker "inf".data = false ∧
    isFloatNum (.inf false) = true :=
  ⟨rfl, rfl, rfl⟩

/-- C7 (amended): for every consumed text accepted by the number rule
(`numberValueOf` succeeding; the characters all come from
`ACCEPTABLE_NUMBER_CHARS`), with `cleaned` the text after `trimRight` and
underscore removal: (1) when `cleaned` starts with `0x`/`0o`/`0b` the
remainder is converted by `parseInt` in base 16/8/2 (an integer, or `NaN`
when no digit is valid) and the `parseFloat` conversion path is never used;
(2) otherwise, when `cleaned` ends in `inf` or `nan` the result is a float
value (±Infinity or NaN) regardless of the marker classification; (3)
otherwise the result is a float exactly when the consumed characters
include `E`, `e` or `.` — underscores having been stripped before every
numeric conversion. -/
theorem C7_number_classification :
    ∀ (chars : List Char) (v : JsNum),
      (∀ c ∈ chars, isAcceptableNumberChar c = true) →
      numberValueOf chars = some v →
      ((jsSubstring (removeUnderscores (jsTrimRight chars)) 0 2 = "0x".data ∨
        jsSubstring (removeUnderscores (jsTrimRight chars)) 0 2 = "0o".data ∨
        jsSubstring (removeUnderscores (jsTrimRight chars)) 0 2 = "0b".data) →
        v = jsNumOfParseInt (jsParseIntRadix
              (if jsSubstring (removeUnderscores (jsTrimRight chars)) 0 2 = "0x".data then 16
               else if jsSubstring (removeUnderscores (jsTrimRight chars)) 0 2 = "0o".data then 8
               else 2)
              (jsSubstringFrom (removeUnderscores (jsTrimRight chars)) 2)) ∧
        isFloatConstructor v = false) ∧
      (¬(jsSubstring (removeUnderscores (jsTrimRight chars)) 0 2 = "0x".data ∨
         jsSubstring (removeUnderscores (jsTrimRight chars)) 0 2 = "0o".data ∨
         jsSubstring (removeUnderscores (jsTrimRight chars)) 0 2 = "0b".data) →
        (jsSubstringFrom (removeUnderscores (jsTrimRight chars))
            ((removeUnderscores (jsTrimRight chars)).length - 3) = "inf".data ∨
         jsSubstringFrom (removeUnderscores (jsTrimRight chars))
            ((removeUnderscores (jsTrimRight chars)).length - 3) = "nan".data) →
        isFloatNum v = true) ∧
      (¬(jsSubstring (removeUnderscores (jsTrimRight chars)) 0 2 = "0x".data ∨
         jsSubstring (removeUnderscores (jsTrimRight chars)) 0 2 = "0o".data ∨
         jsSubstring (removeUnderscores (jsTrimRight chars)) 0 2 = "0b".data) →
        ¬(jsSubstringFrom (removeUnderscores (jsTrimRight chars))
            ((removeUnderscores (jsTrimRight chars)).length - 3) = "inf".data ∨
          jsSubstringFrom (removeUnderscores (jsTrimRight chars))
            ((removeUnderscores (jsTrimRight chars)).length - 3) = "nan".data) →
        (isFloatNum v = true ↔ hasFloatMarker chars = true)) := by
  intro chars v hA hacc
  simp only [numberValueOf] at hacc
  by_cases hpfx : jsSubstring (removeUnderscores (jsTrimRight chars)) 0 2 = "0x".data ∨
      jsSubstring (removeUnderscores (jsTrimRight chars)) 0 2 = "0o".data ∨
      jsSubstring (removeUnderscores (jsTrimRight chars)) 0 2 = "0b".data
  · rw [if_pos hpfx] at hacc
    refine ⟨fun _ => ?_, fun h => absurd hpfx h, fun h => absurd hpfx h⟩
    have hv := Option.some.inj hacc
    constructor
    · exact hv.symm
    · rw [← hv]
      cases jsParseIntRadix
          (if jsSubstring (removeUnderscores (jsTrimRight chars)) 0 2 = "0x".data then 16
           else if jsSubstring (removeUnderscores (jsTrimRight chars)) 0 2 = "0o".data then 8
           else 2)
          (jsSubstringFrom (removeUnderscores (jsTrimRight chars)) 2) <;> rfl
  · rw [if_neg hpfx] at hacc
    refine ⟨fun h => absurd h hpfx, ?_, ?_⟩
    · intro _ hsfx
      rcases hsfx with hinf | hnan
      · rw [if_pos hinf] at hacc
        have hv := Option.some.inj hacc
        rw [← hv]
        rfl
      · by_cases hinf : jsSubstringFrom (removeUnderscores (jsTrimRight chars))
            ((removeUnderscores (jsTrimRight chars)).length - 3) = "inf".data
        · rw [if_pos hinf] at hacc
          have hv := Option.some.inj hacc
          rw [← hv]
          rfl
        · rw [if_neg hinf, if_pos hnan] at hacc
          have hv := Option.some.inj hacc
          rw [← hv]
          rfl
    · intro _ hnsfx
      have hinf : ¬ jsSubstringFrom (removeUnderscores (jsTrimRight chars))
          ((removeUnderscores (jsTrimRight chars)).length - 3) = "inf".data :=
        fun h => hnsfx (Or.inl h)
      have hnan : ¬ jsSubstringFrom (removeUnderscores (jsTrimRight chars))
          ((removeUnderscores (jsTrimRight chars)).length - 3) = "nan".data :=
        fun h => hnsfx (Or.inr h)
      rw [if_neg hinf, if_neg hnan] at hacc
      by_cases hfc : floatClassified chars = true
      · rw [if_pos hfc] at hacc
        cases hpf : jsParseFloat (removeUnderscores (jsTrimRight chars)) with
        | none => rw [hpf] at hacc; cases hacc
        | some q =>
          rw [hpf] at hacc
          have hv := Option.some.inj hacc
          rw [← hv]
          constructor
          · intro _
            exact any_of_any_drop_one _ chars hfc
          · intro _
            rfl
      · rw [if_neg hfc] at hacc
        cases hpi : jsParseIntAuto (removeUnderscores (jsTrimRight chars)) with
        | none => rw [hpi] at hacc; cases hacc
        | some n =>
          rw [hpi] at hacc
          have hv := Option.some.inj hacc
          rw [← hv]
          have hmarker : hasFloatMarker chars = false := by
            by_contra hmk
            have hmk' : hasFloatMarker chars = true := by
              cases hx : hasFloatMarker chars
              · exact absurd hx hmk
              · rfl
            cases hcs : chars with
            | nil => rw [hcs] at hmk'; simp [hasFloatMarker] at hmk'
            | cons m t =>
              have hfc' : floatClassified chars = false := by
                cases hx : floatClassified chars
                · rfl
                · exact absurd hx hfc
              rw [hcs] at hmk' hfc'
              simp only [floatClassified, List.drop_one, List.tail_cons] at hfc'
              simp only [hasFloatMarker, List.any_cons, hfc', Bool.or_false] at hmk'
              have hm : m = 'E' ∨ m = 'e' ∨ m = '.' := by
                simpa [decide_eq_true_eq] using hmk'
              have htrim : jsTrimRight chars = chars :=
                jsTrimRight_eq_self_of_acceptable chars hA
              have hm' : m ≠ '_' := by
                rcases hm with rfl | rfl | rfl <;> decide
              have hclean : removeUnderscores (jsTrimRight chars) =
                  m :: (t.filter (fun c => c ≠ '_')) := by
                rw [htrim, hcs]
                simp [removeUnderscores, List.filter_cons, hm']
              rw [hclean] at hpi
              have hmm : m = '.' ∨ m = 'e' ∨ m = 'E' := by tauto
              rw [jsParseIntAuto_marker_head_eq_none m _ hmm] at hpi
              cases hpi
          rw [hmarker]
          simp [isFloatNum]

/-- Witness for the amended C7: the hexadecimal literal `0x1F` goes through
the base-16 `parseInt` path and is not a `parseFloat` result. -/
theorem C7_number_classification_witness :
    JsNum.int 31 = jsNumOfParseInt (jsParseIntRadix 16
      (jsSubstringFrom (removeUnderscores (jsTrimRight "0x1F".data)) 2)) ∧
    isFloatConstructor (JsNum.int 31) = false :=
  (C7_number_classification "0x1F".data (.int 31) (by decide) rfl).1 (Or.inl rfl)

/-- Witness for C9: the remaining text `\q"`: the undefined escape `\q`
is appended literally as backslash-q and the loop continues at position
1. -/
theorem C9_unknown_escape_kept_literally_witness :
    basicStringLoop (runCall 50) "\"".data false [] unknownEscapeState =
      runCall 50 (.basicStringLoop "\"".data false [['\\', 'q']])
        { unknownEscapeState with pos := 1 } :=
  C9_unknown_escape_kept_literally (runCall 50) "\"".data false [] unknownEscapeState 'q'
    rfl (by decide) rfl (by decide) rfl rfl (by decide) (by decide)

end Gura
